import Mathlib

/-!
# Verification of the game-physics core (`src/lib/game-physics`)

Shallow embedding of the deterministic 2D physics stepper and its
validation layer.  JavaScript numbers are modelled as rationals (`ℚ`);
`Math.sqrt` is modelled by `sqrtQ`, exact on rational perfect squares
(every claim below only exercises `sqrt` on perfect squares, in
particular `sqrt 0`).  Optional (`?:`) fields become `Option`;
`undefined`-vs-`false` for `isStatic` is collapsed to `Bool`, faithful
because the source only ever reads it through boolean coercion.
-/

namespace GamePhysics

/-- `Vector2` from `types.ts`: a real-valued pair. -/
structure Vector2 where
  x : ℚ
  y : ℚ
deriving DecidableEq, Repr

/-- `clamp` from `math.ts`: `Math.min(max, Math.max(min, value))`. -/
def clamp (value lo hi : ℚ) : ℚ :=
  min hi (max lo value)

/-- `add` from `math.ts`. -/
def vadd (a b : Vector2) : Vector2 := ⟨a.x + b.x, a.y + b.y⟩

/-- `subtract` from `math.ts`. -/
def subtract (a b : Vector2) : Vector2 := ⟨a.x - b.x, a.y - b.y⟩

/-- `scale` from `math.ts`. -/
def scale (v : Vector2) (factor : ℚ) : Vector2 := ⟨v.x * factor, v.y * factor⟩

/-- `dot` from `math.ts`. -/
def dot (a b : Vector2) : ℚ := a.x * b.x + a.y * b.y

/-- `Number.EPSILON` (2⁻⁵²). -/
def EPSILON : ℚ := 1 / 2 ^ 52

/-- Model of `Math.sqrt` on rationals: exact whenever the argument is the
square of a rational (the only inputs on which any theorem below depends),
an integer-square-root approximation otherwise. -/
def sqrtQ (q : ℚ) : ℚ :=
  (Nat.sqrt q.num.toNat : ℚ) / (Nat.sqrt q.den : ℚ)

/-- `length` from `math.ts`: `Math.sqrt(dot(v, v))`. -/
def vlength (v : Vector2) : ℚ := sqrtQ (dot v v)

/-- `normalize` from `math.ts`: zero-guard for magnitudes `≤ Number.EPSILON`. -/
def normalize (v : Vector2) : Vector2 :=
  let magnitude := vlength v
  if magnitude ≤ EPSILON then ⟨0, 0⟩
  else scale v (1 / magnitude)

/-- `PhysicsBody` from `types.ts`.  `isStatic?: boolean` is modelled as a
`Bool` (the source reads it only via truthiness, where `undefined` and
`false` coincide); the optional numeric overrides stay `Option`. -/
structure PhysicsBody where
  id : String
  position : Vector2
  velocity : Vector2
  halfSize : Vector2
  mass : ℚ
  isStatic : Bool := false
  restitution : Option ℚ := none
  friction : Option ℚ := none
  linearDamping : Option ℚ := none
  tag : Option String := none
deriving DecidableEq, Repr

/-- `WorldBounds` from `types.ts`. -/
structure WorldBounds where
  min : Vector2
  max : Vector2
deriving DecidableEq, Repr

/-- `PhysicsWorldState` from `types.ts`. -/
structure PhysicsWorldState where
  tick : ℚ
  elapsedMs : ℚ
  gravity : Vector2
  bounds : WorldBounds
  defaultRestitution : Option ℚ := none
  defaultFriction : Option ℚ := none
  defaultLinearDamping : Option ℚ := none
  bodies : List PhysicsBody
deriving DecidableEq, Repr

/-- `PhysicsAction` from `types.ts`, as a sum type (discriminated union). -/
inductive PhysicsAction where
  | applyImpulse (bodyId : String) (impulse : Vector2)
  | applyForce (bodyId : String) (force : Vector2)
  | setVelocity (bodyId : String) (velocity : Vector2)
  | teleport (bodyId : String) (position : Vector2)
  | spawnBody (body : PhysicsBody)
  | removeBody (bodyId : String)
deriving DecidableEq, Repr

/-- `CollisionEvent` from `types.ts`. -/
structure CollisionEvent where
  aId : String
  bId : String
  normal : Vector2
  depth : ℚ
  relativeSpeed : ℚ
deriving DecidableEq, Repr

/-- `PhysicsSimulationRequest` from `types.ts` (optional fields). -/
structure PhysicsSimulationRequest where
  world : PhysicsWorldState
  actions : Option (List PhysicsAction) := none
  dtMs : Option ℚ := none
  steps : Option ℚ := none
deriving DecidableEq, Repr

/-- `PhysicsSimulationResult` from `types.ts`. -/
structure PhysicsSimulationResult where
  world : PhysicsWorldState
  collisions : List CollisionEvent
deriving DecidableEq, Repr

/-! ## Engine constants (`engine.ts`) -/

def DEFAULT_DT_MS : ℚ := 16667 / 1000
def DEFAULT_STEPS : ℚ := 1
def MIN_DT_MS : ℚ := 1
def MAX_DT_MS : ℚ := 100
def MAX_STEPS : ℚ := 32

/-- `Math.round`: round half toward positive infinity. -/
def jsRound (q : ℚ) : ℤ := ⌊q + 1 / 2⌋

/-- `cloneBody` from `engine.ts`.  In the pure value embedding a structural
copy is the value itself; the heap embedding below models the aliasing. -/
def cloneBody (body : PhysicsBody) : PhysicsBody :=
  { body with
    position := body.position
    velocity := body.velocity
    halfSize := body.halfSize }

/-- `cloneWorld` from `engine.ts` (value-level). -/
def cloneWorld (world : PhysicsWorldState) : PhysicsWorldState :=
  { world with
    gravity := world.gravity
    bounds := { min := world.bounds.min, max := world.bounds.max }
    bodies := world.bodies.map cloneBody }

/-- `getBodyRestitution`: `clamp(body.restitution ?? world.defaultRestitution ?? 0.25, 0, 1)`. -/
def getBodyRestitution (world : PhysicsWorldState) (body : PhysicsBody) : ℚ :=
  clamp (body.restitution.getD (world.defaultRestitution.getD (1 / 4))) 0 1

/-- `getBodyFriction`: `clamp(body.friction ?? world.defaultFriction ?? 0.2, 0, 1)`. -/
def getBodyFriction (world : PhysicsWorldState) (body : PhysicsBody) : ℚ :=
  clamp (body.friction.getD (world.defaultFriction.getD (1 / 5))) 0 1

/-- `getBodyLinearDamping`: `clamp(body.linearDamping ?? world.defaultLinearDamping ?? 0.02, 0, 1)`. -/
def getBodyLinearDamping (world : PhysicsWorldState) (body : PhysicsBody) : ℚ :=
  clamp (body.linearDamping.getD (world.defaultLinearDamping.getD (1 / 50))) 0 1

/-- `isDynamic` from `engine.ts`. -/
def isDynamic (body : PhysicsBody) : Bool := !body.isStatic

/-- `bodyInverseMass` from `engine.ts`: 0 for static bodies, `1/mass` when
`mass > 0`, and the fallback `1` for non-positive mass. -/
def bodyInverseMass (body : PhysicsBody) : ℚ :=
  if !(isDynamic body) then 0
  else if body.mass > 0 then 1 / body.mass else 1

/-- Lookup in `bodyById`.  The source builds
`new Map(world.bodies.map(b => [b.id, b]))`, in which a later entry
overwrites an earlier one, and keeps the map in sync with the array; so a
lookup always answers the last element of `world.bodies` with that id. -/
def lookupBody (bodies : List PhysicsBody) (bodyId : String) : Option PhysicsBody :=
  (bodies.filter (fun b => b.id == bodyId)).getLast?

/-- Replace the first element satisfying `p` by its image under `f`. -/
def updateFirst (p : PhysicsBody → Bool) (f : PhysicsBody → PhysicsBody) :
    List PhysicsBody → List PhysicsBody
  | [] => []
  | b :: rest => if p b then f b :: rest else b :: updateFirst p f rest

/-- Mutation through the `bodyById` map: the map aliases the last element
of `world.bodies` with the given id, so mutating the looked-up object
updates that element. -/
def updateLast (p : PhysicsBody → Bool) (f : PhysicsBody → PhysicsBody)
    (bodies : List PhysicsBody) : List PhysicsBody :=
  (updateFirst p f bodies.reverse).reverse

/-- `applyAction` from `engine.ts`, acting on `world.bodies` (the
`bodyById` map is represented by last-occurrence lookup, see `lookupBody`). -/
def applyAction (bodies : List PhysicsBody) (action : PhysicsAction)
    (dtSeconds : ℚ) : List PhysicsBody :=
  match action with
  | .spawnBody body =>
      let incomingBody := cloneBody body
      if incomingBody.id = "" ∨ (lookupBody bodies incomingBody.id).isSome then bodies
      else bodies ++ [incomingBody]
  | .removeBody bodyId =>
      match lookupBody bodies bodyId with
      | none => bodies
      | some _ => bodies.filter (fun b => !(b.id == bodyId))
  | .applyImpulse bodyId impulse =>
      match lookupBody bodies bodyId with
      | none => bodies
      | some target =>
        if !(isDynamic target) then bodies
        else
          let inverseMass := bodyInverseMass target
          updateLast (fun b => b.id == bodyId)
            (fun t => { t with velocity :=
              ⟨t.velocity.x + impulse.x * inverseMass,
               t.velocity.y + impulse.y * inverseMass⟩ }) bodies
  | .applyForce bodyId force =>
      match lookupBody bodies bodyId with
      | none => bodies
      | some target =>
        if !(isDynamic target) then bodies
        else
          let inverseMass := bodyInverseMass target
          updateLast (fun b => b.id == bodyId)
            (fun t => { t with velocity :=
              ⟨t.velocity.x + force.x * inverseMass * dtSeconds,
               t.velocity.y + force.y * inverseMass * dtSeconds⟩ }) bodies
  | .setVelocity bodyId velocity =>
      match lookupBody bodies bodyId with
      | none => bodies
      | some target =>
        if !(isDynamic target) then bodies
        else updateLast (fun b => b.id == bodyId)
          (fun t => { t with velocity := velocity }) bodies
  | .teleport bodyId position =>
      match lookupBody bodies bodyId with
      | none => bodies
      | some target =>
        if !(isDynamic target) then bodies
        else updateLast (fun b => b.id == bodyId)
          (fun t => { t with position := position }) bodies

/-- Body of the loop in `integrateBodies` from `engine.ts`. -/
def integrateBody (world : PhysicsWorldState) (dtSeconds : ℚ)
    (body : PhysicsBody) : PhysicsBody :=
  if !(isDynamic body) then body
  else
    let vx := body.velocity.x + world.gravity.x * dtSeconds
    let vy := body.velocity.y + world.gravity.y * dtSeconds
    let damping := getBodyLinearDamping world body
    let dampingFactor := clamp (1 - damping * dtSeconds) 0 1
    let vx := vx * dampingFactor
    let vy := vy * dampingFactor
    { body with
      velocity := ⟨vx, vy⟩
      position := ⟨body.position.x + vx * dtSeconds, body.position.y + vy * dtSeconds⟩ }

/-- `integrateBodies` from `engine.ts`. -/
def integrateBodies (world : PhysicsWorldState) (dtSeconds : ℚ) : PhysicsWorldState :=
  { world with bodies := world.bodies.map (integrateBody world dtSeconds) }

/-- `resolveWorldCollision` from `engine.ts`.  `left`/`right`/`top`/`bottom`
are computed once from the entry position; position and velocity mutations
thread through the four side checks in source order
(left, right, top, bottom).  Each `CollisionEvent` is pushed *after* the
velocity reflection of its side, exactly as in the source. -/
def resolveWorldCollision (world : PhysicsWorldState) (body : PhysicsBody) :
    PhysicsBody × List CollisionEvent :=
  if !(isDynamic body) then (body, [])
  else
    let left := body.position.x - body.halfSize.x
    let right := body.position.x + body.halfSize.x
    let top := body.position.y - body.halfSize.y
    let bottom := body.position.y + body.halfSize.y
    let restitution := getBodyRestitution world body
    let friction := getBodyFriction world body
    let frictionFactor := clamp (1 - friction) 0 1
    let pos := body.position
    let vel := body.velocity
    let events : List CollisionEvent := []
    let (pos, vel, events) :=
      if left < world.bounds.min.x then
        let depth := world.bounds.min.x - left
        let pos : Vector2 := { pos with x := pos.x + depth }
        let vel : Vector2 :=
          if vel.x < 0 then ⟨-vel.x * restitution, vel.y * frictionFactor⟩ else vel
        (pos, vel, events ++
          [CollisionEvent.mk body.id "__world__" ⟨1, 0⟩ depth |vel.x|])
      else (pos, vel, events)
    let (pos, vel, events) :=
      if right > world.bounds.max.x then
        let depth := right - world.bounds.max.x
        let pos : Vector2 := { pos with x := pos.x - depth }
        let vel : Vector2 :=
          if vel.x > 0 then ⟨-vel.x * restitution, vel.y * frictionFactor⟩ else vel
        (pos, vel, events ++
          [CollisionEvent.mk body.id "__world__" ⟨-1, 0⟩ depth |vel.x|])
      else (pos, vel, events)
    let (pos, vel, events) :=
      if top < world.bounds.min.y then
        let depth := world.bounds.min.y - top
        let pos : Vector2 := { pos with y := pos.y + depth }
        let vel : Vector2 :=
          if vel.y < 0 then ⟨vel.x * frictionFactor, -vel.y * restitution⟩ else vel
        (pos, vel, events ++
          [CollisionEvent.mk body.id "__world__" ⟨0, 1⟩ depth |vel.y|])
      else (pos, vel, events)
    let (pos, vel, events) :=
      if bottom > world.bounds.max.y then
        let depth := bottom - world.bounds.max.y
        let pos : Vector2 := { pos with y := pos.y - depth }
        let vel : Vector2 :=
          if vel.y > 0 then ⟨vel.x * frictionFactor, -vel.y * restitution⟩ else vel
        (pos, vel, events ++
          [CollisionEvent.mk body.id "__world__" ⟨0, -1⟩ depth |vel.y|])
      else (pos, vel, events)
    ({ body with position := pos, velocity := vel }, events)

/-- `resolveBodyCollision` from `engine.ts`: AABB overlap test,
minimum-overlap axis as normal, inverse-mass-proportional positional
correction, strict separating-velocity early return (`> 0`), normal
impulse with `e = min(restitutionA, restitutionB)`, tangential impulse
clamped by the Coulomb cone, and one event with
`relativeSpeed = |velocityAlongNormal|`. -/
def resolveBodyCollision (world : PhysicsWorldState) (bodyA bodyB : PhysicsBody) :
    PhysicsBody × PhysicsBody × List CollisionEvent :=
  let delta := subtract bodyB.position bodyA.position
  let overlapX := bodyA.halfSize.x + bodyB.halfSize.x - |delta.x|
  let overlapY := bodyA.halfSize.y + bodyB.halfSize.y - |delta.y|
  if overlapX ≤ 0 ∨ overlapY ≤ 0 then (bodyA, bodyB, [])
  else
    let normal : Vector2 :=
      if overlapX < overlapY then ⟨if delta.x ≥ 0 then 1 else -1, 0⟩
      else ⟨0, if delta.y ≥ 0 then 1 else -1⟩
    let depth := if overlapX < overlapY then overlapX else overlapY
    let inverseMassA := bodyInverseMass bodyA
    let inverseMassB := bodyInverseMass bodyB
    let inverseMassTotal := inverseMassA + inverseMassB
    if inverseMassTotal ≤ EPSILON then (bodyA, bodyB, [])
    else
      let separation := scale normal depth
      let posA :=
        if inverseMassA > 0 then
          Vector2.mk (bodyA.position.x - separation.x * (inverseMassA / inverseMassTotal))
            (bodyA.position.y - separation.y * (inverseMassA / inverseMassTotal))
        else bodyA.position
      let posB :=
        if inverseMassB > 0 then
          Vector2.mk (bodyB.position.x + separation.x * (inverseMassB / inverseMassTotal))
            (bodyB.position.y + separation.y * (inverseMassB / inverseMassTotal))
        else bodyB.position
      let relativeVelocity := subtract bodyB.velocity bodyA.velocity
      let velocityAlongNormal := dot relativeVelocity normal
      if velocityAlongNormal > 0 then
        ({ bodyA with position := posA }, { bodyB with position := posB }, [])
      else
        let restitution :=
          min (getBodyRestitution world bodyA) (getBodyRestitution world bodyB)
        let normalImpulseScalar :=
          (-(1 + restitution) * velocityAlongNormal) / inverseMassTotal
        let normalImpulse := scale normal normalImpulseScalar
        let velA :=
          if inverseMassA > 0 then
            Vector2.mk (bodyA.velocity.x - normalImpulse.x * inverseMassA)
              (bodyA.velocity.y - normalImpulse.y * inverseMassA)
          else bodyA.velocity
        let velB :=
          if inverseMassB > 0 then
            Vector2.mk (bodyB.velocity.x + normalImpulse.x * inverseMassB)
              (bodyB.velocity.y + normalImpulse.y * inverseMassB)
          else bodyB.velocity
        let tangentVector :=
          subtract relativeVelocity (scale normal (dot relativeVelocity normal))
        let tangent := normalize tangentVector
        let friction :=
          sqrtQ (getBodyFriction world bodyA * getBodyFriction world bodyB)
        let tangentImpulseUnclamped :=
          -(dot relativeVelocity tangent) / inverseMassTotal
        let tangentImpulseLimit := normalImpulseScalar * friction
        let tangentImpulseScalar :=
          clamp tangentImpulseUnclamped (-tangentImpulseLimit) tangentImpulseLimit
        let tangentImpulse := scale tangent tangentImpulseScalar
        let velA :=
          if inverseMassA > 0 then
            Vector2.mk (velA.x - tangentImpulse.x * inverseMassA)
              (velA.y - tangentImpulse.y * inverseMassA)
          else velA
        let velB :=
          if inverseMassB > 0 then
            Vector2.mk (velB.x + tangentImpulse.x * inverseMassB)
              (velB.y + tangentImpulse.y * inverseMassB)
          else velB
        ({ bodyA with position := posA, velocity := velA },
         { bodyB with position := posB, velocity := velB },
         [CollisionEvent.mk bodyA.id bodyB.id normal depth |velocityAlongNormal|])

/-- Stable insertion used to model the JavaScript stable sort: an element
is placed before the first strictly greater id, after equal ids. -/
def insertByBodyId (x : Nat × PhysicsBody) :
    List (Nat × PhysicsBody) → List (Nat × PhysicsBody)
  | [] => [x]
  | y :: ys => if x.2.id < y.2.id then x :: y :: ys else y :: insertByBodyId x ys

/-- Model of `[...world.bodies].sort((a, b) => a.id.localeCompare(b.id))`:
a stable sort by id (lexicographic order standing in for the locale
order), with each body paired with its index in `world.bodies` so the
in-place mutations can be mapped back to the original array. -/
def sortBodiesById (entries : List (Nat × PhysicsBody)) : List (Nat × PhysicsBody) :=
  entries.foldl (fun acc x => insertByBodyId x acc) []

/-- The index pairs `(index, inner)` visited by the nested loops of
`stepWorld`, in visit order: `0 ≤ index < inner < n`. -/
def pairIndices (n : Nat) : List (Nat × Nat) :=
  (List.range n).flatMap (fun i => ((List.range n).drop (i + 1)).map (fun j => (i, j)))

/-- The pairwise collision loops of `stepWorld`: iterate over the sorted
entries, skip pairs of two static bodies, and write the two resolved
bodies back in place (the source mutates `orderedBodies[index]` and
`orderedBodies[inner]` through shared references). -/
def resolvePairs (world : PhysicsWorldState) (entries : List (Nat × PhysicsBody)) :
    List (Nat × PhysicsBody) × List CollisionEvent :=
  (pairIndices entries.length).foldl
    (fun acc ij =>
      match acc.1.get? ij.1, acc.1.get? ij.2 with
      | some a, some b =>
        if !(isDynamic a.2) && !(isDynamic b.2) then acc
        else
          let r := resolveBodyCollision world a.2 b.2
          ((acc.1.set ij.1 (a.1, r.1)).set ij.2 (b.1, r.2.1), acc.2 ++ r.2.2)
      | _, _ => acc)
    (entries, [])

/-- After the pairwise loops, `world.bodies` (in its original order)
consists of the mutated body objects; recover it from the sorted entries
by original index. -/
def restoreBodyOrder (count : Nat) (entries : List (Nat × PhysicsBody)) :
    List PhysicsBody :=
  (List.range count).filterMap
    (fun k => (entries.find? (fun e => e.1 == k)).map (fun e => e.2))

/-- `stepWorld` from `engine.ts`: clone, apply actions, integrate,
boundary resolution per body, pairwise resolution over the id-sorted
bodies, then advance `tick` and `elapsedMs`. -/
def stepWorld (sourceWorld : PhysicsWorldState) (actions : List PhysicsAction)
    (dtMs : ℚ) : PhysicsWorldState × List CollisionEvent :=
  let world := cloneWorld sourceWorld
  let dtSeconds := dtMs / 1000
  let world :=
    { world with bodies :=
        actions.foldl (fun bs a => applyAction bs a dtSeconds) world.bodies }
  let world := integrateBodies world dtSeconds
  let resolved := world.bodies.map (resolveWorldCollision world)
  let boundaryEvents := (resolved.map Prod.snd).flatten
  let world := { world with bodies := resolved.map Prod.fst }
  let ordered := sortBodiesById world.bodies.enum
  let paired := resolvePairs world ordered
  let world := { world with bodies := restoreBodyOrder world.bodies.length paired.1 }
  let world := { world with tick := world.tick + 1, elapsedMs := world.elapsedMs + dtMs }
  (world, boundaryEvents ++ paired.2)

/-- The sub-step loop of `runPhysicsSimulation`: the supplied action list
is passed to the first `stepWorld` call only (`stepIndex === 0`),
subsequent sub-steps receive `[]`; collision events are concatenated in
order. -/
def simLoop (dtMs : ℚ) (actions : List PhysicsAction) :
    Nat → PhysicsWorldState → PhysicsWorldState × List CollisionEvent
  | 0, world => (world, [])
  | n + 1, world =>
    let r := stepWorld world actions dtMs
    let rest := simLoop dtMs [] n r.1
    (rest.1, r.2 ++ rest.2)

/-- `runPhysicsSimulation` from `engine.ts`. -/
def runPhysicsSimulation (request : PhysicsSimulationRequest) :
    PhysicsSimulationResult :=
  let dtMs := clamp (request.dtMs.getD DEFAULT_DT_MS) MIN_DT_MS MAX_DT_MS
  let steps := jsRound (clamp (request.steps.getD DEFAULT_STEPS) DEFAULT_STEPS MAX_STEPS)
  let actions := request.actions.getD []
  let world := cloneWorld request.world
  let r := simLoop dtMs actions steps.toNat world
  { world := r.1, collisions := r.2 }

/-! ## Validation / normalization layer (`tool.ts`)

Untrusted payloads are modelled by `JsVal`, a JSON-shaped value type with
an explicit `undef` for missing properties.  Rationals stand for the
finite JavaScript numbers (non-finite numbers cannot appear in a JSON
payload, and `toFiniteNumber` maps every non-number to its fallback
anyway).  Failures (`throw new Error(msg)`) become `Except.error msg`. -/

inductive JsVal where
  | undef
  | null
  | bool (b : Bool)
  | num (q : ℚ)
  | str (s : String)
  | arr (elems : List JsVal)
  | obj (fields : List (String × JsVal))

/-- Property access `value.k`: defined on objects, `undefined` elsewhere
(the source never reads a named property that an array could carry). -/
def getProp (v : JsVal) (k : String) : JsVal :=
  match v with
  | .obj fields => ((fields.find? (fun f => f.1 == k)).map (fun f => f.2)).getD .undef
  | _ => (.undef : JsVal)

/-- `isObject` from `tool.ts`: `typeof value === "object" && value !== null`
(true for plain objects and arrays, false for `null`). -/
def jsIsObject (v : JsVal) : Bool :=
  match v with
  | .obj _ => true
  | .arr _ => true
  | _ => false

/-- `Boolean(value)` truthiness. -/
def jsTruthy (v : JsVal) : Bool :=
  match v with
  | .undef => false
  | .null => false
  | .bool b => b
  | .num q => !(q == 0)
  | .str s => !(s == "")
  | .arr _ => true
  | .obj _ => true

/-- Model of `String.prototype.trim`: strip leading and trailing
whitespace (structurally, over the character list, so that concrete
instances evaluate). -/
def jsTrim (s : String) : String :=
  ⟨((s.data.dropWhile Char.isWhitespace).reverse.dropWhile Char.isWhitespace).reverse⟩

def MAX_BODIES : ℕ := 300
def MAX_ACTIONS : ℕ := 100

/-- `toFiniteNumber` from `tool.ts`. -/
def toFiniteNumber (v : JsVal) (fallback : ℚ) : ℚ :=
  match v with
  | .num q => q
  | _ => fallback

/-- `readVector` from `tool.ts`. -/
def readVector (v : JsVal) (fallback : Vector2 := ⟨0, 0⟩) : Vector2 :=
  if !(jsIsObject v) then fallback
  else ⟨toFiniteNumber (getProp v "x") fallback.x,
        toFiniteNumber (getProp v "y") fallback.y⟩

/-- `normalizeBody` from `tool.ts`. -/
def normalizeBody (value : JsVal) (index : ℕ) : Except String PhysicsBody := do
  if !(jsIsObject value) then
    throw s!"Body at index {index} must be an object."
  let id :=
    match getProp value "id" with
    | .str s => jsTrim s
    | _ => ""
  if id = "" then
    throw s!"Body at index {index} is missing a valid id."
  let mass := max (toFiniteNumber (getProp value "mass") 1) (1 / 10000)
  let halfSize := readVector (getProp value "halfSize") ⟨1 / 2, 1 / 2⟩
  pure
    { id := id
      position := readVector (getProp value "position")
      velocity := readVector (getProp value "velocity")
      halfSize := ⟨max |halfSize.x| (1 / 10000), max |halfSize.y| (1 / 10000)⟩
      mass := mass
      isStatic := jsTruthy (getProp value "isStatic")
      restitution := some (toFiniteNumber (getProp value "restitution") (1 / 4))
      friction := some (toFiniteNumber (getProp value "friction") (1 / 5))
      linearDamping := some (toFiniteNumber (getProp value "linearDamping") (1 / 50))
      tag :=
        match getProp value "tag" with
        | .str s => some s
        | _ => none }

/-- `normalizeAction` from `tool.ts`. -/
def normalizeAction (value : JsVal) (index : ℕ) : Except String PhysicsAction := do
  if !(jsIsObject value) then
    throw s!"Action at index {index} must include a valid type."
  match getProp value "type" with
  | .str ty =>
    if ty = "spawnBody" then do
      let body ← normalizeBody (getProp value "body") index
      pure (.spawnBody body)
    else if ty = "removeBody" then
      let bodyId :=
        match getProp value "bodyId" with
        | .str s => jsTrim s
        | _ => ""
      if bodyId = "" then
        throw s!"removeBody action at index {index} requires bodyId."
      else pure (.removeBody bodyId)
    else
      let bodyId :=
        match getProp value "bodyId" with
        | .str s => jsTrim s
        | _ => ""
      if bodyId = "" then
        throw s!"Action at index {index} requires a valid bodyId."
      else if ty = "applyImpulse" then
        pure (.applyImpulse bodyId (readVector (getProp value "impulse")))
      else if ty = "applyForce" then
        pure (.applyForce bodyId (readVector (getProp value "force")))
      else if ty = "setVelocity" then
        pure (.setVelocity bodyId (readVector (getProp value "velocity")))
      else if ty = "teleport" then
        pure (.teleport bodyId (readVector (getProp value "position")))
      else
        throw s!"Unknown action type \"{ty}\" at index {index}."
  | _ => throw s!"Action at index {index} must include a valid type."

/-- `rawBodies.map((body, index) => normalizeBody(body, index))`: in-order
mapping whose first failure aborts the whole call. -/
def normalizeBodies : List JsVal → ℕ → Except String (List PhysicsBody)
  | [], _ => .ok []
  | v :: rest, index => do
    let b ← normalizeBody v index
    let bs ← normalizeBodies rest (index + 1)
    pure (b :: bs)

/-- `actionsRaw.map((action, index) => normalizeAction(action, index))`. -/
def normalizeActions : List JsVal → ℕ → Except String (List PhysicsAction)
  | [], _ => .ok []
  | v :: rest, index => do
    let a ← normalizeAction v index
    let as ← normalizeActions rest (index + 1)
    pure (a :: as)

/-- The duplicate-id scan of `normalizeWorld`: walk the normalized bodies
in order with a seen-set, answering the first repeated id. -/
def findDuplicateId : List PhysicsBody → List String → Option String
  | [], _ => none
  | b :: rest, seen =>
    if b.id ∈ seen then some b.id else findDuplicateId rest (b.id :: seen)

/-- `normalizeWorld` from `tool.ts`. -/
def normalizeWorld (value : JsVal) : Except String PhysicsWorldState := do
  if !(jsIsObject value) then
    throw "world must be an object."
  let rawBodies :=
    match getProp value "bodies" with
    | .arr elems => elems
    | _ => []
  if rawBodies.length > MAX_BODIES then
    throw s!"world.bodies exceeds limit of {MAX_BODIES}."
  let bodies ← normalizeBodies rawBodies 0
  match findDuplicateId bodies [] with
  | some id => throw s!"Duplicate body id \"{id}\" in world.bodies."
  | none => do
    let boundsVal :=
      if jsIsObject (getProp value "bounds") then getProp value "bounds" else .obj []
    let minV := readVector (getProp boundsVal "min") ⟨0, 0⟩
    let maxV := readVector (getProp boundsVal "max") ⟨100, 100⟩
    if maxV.x ≤ minV.x ∨ maxV.y ≤ minV.y then
      throw "world.bounds.max must be greater than world.bounds.min."
    pure
      { tick := max ((jsRound (toFiniteNumber (getProp value "tick") 0) : ℤ) : ℚ) 0
        elapsedMs := max (toFiniteNumber (getProp value "elapsedMs") 0) 0
        gravity := readVector (getProp value "gravity") ⟨0, 12⟩
        bounds := { min := minV, max := maxV }
        defaultRestitution := some (toFiniteNumber (getProp value "defaultRestitution") (1 / 4))
        defaultFriction := some (toFiniteNumber (getProp value "defaultFriction") (1 / 5))
        defaultLinearDamping := some (toFiniteNumber (getProp value "defaultLinearDamping") (1 / 50))
        bodies := bodies }

/-- `normalizeRequest` from `tool.ts`.  The `actions` length check runs
before `normalizeWorld`, and the object literal evaluates `world` before
mapping the actions. -/
def normalizeRequest (payload : JsVal) : Except String PhysicsSimulationRequest := do
  if !(jsIsObject payload) then
    throw "Request payload must be an object."
  let actionsRaw :=
    match getProp payload "actions" with
    | .arr elems => elems
    | _ => []
  if actionsRaw.length > MAX_ACTIONS then
    throw s!"actions exceeds limit of {MAX_ACTIONS}."
  let world ← normalizeWorld (getProp payload "world")
  let actions ← normalizeActions actionsRaw 0
  pure
    { world := world
      actions := some actions
      dtMs := some (toFiniteNumber (getProp payload "dtMs") (16667 / 1000))
      steps := some (max ((jsRound (toFiniteNumber (getProp payload "steps") 1) : ℤ) : ℚ) 1) }

/-- `runGamePhysicsTool` from `tool.ts`: normalize, then simulate.  An
`Except.error` carries only the message — no world is returned. -/
def runGamePhysicsTool (payload : JsVal) : Except String PhysicsSimulationResult :=
  (normalizeRequest payload).map runPhysicsSimulation

/-! ## Basic lemmas -/

lemma cloneBody_eq (b : PhysicsBody) : cloneBody b = b := rfl

lemma cloneWorld_eq (w : PhysicsWorldState) : cloneWorld w = w := by
  show ({ w with bodies := w.bodies.map cloneBody } : PhysicsWorldState) = w
  simp [show cloneBody = id from rfl]

lemma stepWorld_tick (w : PhysicsWorldState) (acts : List PhysicsAction) (dt : ℚ) :
    (stepWorld w acts dt).1.tick = w.tick + 1 ∧
    (stepWorld w acts dt).1.elapsedMs = w.elapsedMs + dt := by
  simp [stepWorld, integrateBodies, cloneWorld_eq]

lemma simLoop_tick (dt : ℚ) :
    ∀ (n : ℕ) (acts : List PhysicsAction) (w : PhysicsWorldState),
      (simLoop dt acts n w).1.tick = w.tick + (n : ℚ) ∧
      (simLoop dt acts n w).1.elapsedMs = w.elapsedMs + (n : ℚ) * dt := by
  intro n
  induction n with
  | zero => intro acts w; simp [simLoop]
  | succ n ih =>
    intro acts w
    have h := stepWorld_tick w acts dt
    have h2 := ih [] (stepWorld w acts dt).1
    constructor
    · rw [simLoop]
      dsimp only
      rw [h2.1, h.1]
      push_cast
      ring
    · rw [simLoop]
      dsimp only
      rw [h2.2, h.2]
      push_cast
      ring

/-- C4: `runPhysicsSimulation` advances `tick` by the effective step count
`round(clamp(steps, 1, 32))` (one per stepper invocation) and `elapsedMs`
by that count times the effective `clamp(dtMs, 1, 100)`; with `steps = 1`
and `dtMs = 20` this is exactly `tick + 1` and `elapsedMs + 20`. -/
theorem tick_and_time_advance (request : PhysicsSimulationRequest) :
    (runPhysicsSimulation request).world.tick =
      request.world.tick +
        ((jsRound (clamp (request.steps.getD DEFAULT_STEPS) DEFAULT_STEPS MAX_STEPS) : ℤ) : ℚ) ∧
    (runPhysicsSimulation request).world.elapsedMs =
      request.world.elapsedMs +
        ((jsRound (clamp (request.steps.getD DEFAULT_STEPS) DEFAULT_STEPS MAX_STEPS) : ℤ) : ℚ) *
          clamp (request.dtMs.getD DEFAULT_DT_MS) MIN_DT_MS MAX_DT_MS := by
  have hsteps : (1 : ℤ) ≤ jsRound (clamp (request.steps.getD DEFAULT_STEPS) DEFAULT_STEPS MAX_STEPS) := by
    have h1 : (1 : ℚ) ≤ clamp (request.steps.getD DEFAULT_STEPS) DEFAULT_STEPS MAX_STEPS := by
      unfold clamp DEFAULT_STEPS MAX_STEPS
      exact le_min (by norm_num) (le_max_left 1 _)
    unfold jsRound
    have : (3 / 2 : ℚ) ≤ clamp (request.steps.getD DEFAULT_STEPS) DEFAULT_STEPS MAX_STEPS + 1 / 2 := by
      linarith
    calc (1 : ℤ) = ⌊(3 / 2 : ℚ)⌋ := by norm_num
    _ ≤ _ := Int.floor_le_floor this
  set s : ℤ := jsRound (clamp (request.steps.getD DEFAULT_STEPS) DEFAULT_STEPS MAX_STEPS) with hs
  have hcast : ((s.toNat : ℕ) : ℚ) = (s : ℚ) := by
    have h0 : ((s.toNat : ℕ) : ℤ) = s := Int.toNat_of_nonneg (le_trans (by norm_num) hsteps)
    exact_mod_cast h0
  have h := simLoop_tick (clamp (request.dtMs.getD DEFAULT_DT_MS) MIN_DT_MS MAX_DT_MS)
    s.toNat (request.actions.getD []) (cloneWorld request.world)
  constructor
  · show (simLoop _ _ s.toNat _).1.tick = _
    rw [h.1, hcast, cloneWorld_eq]
  · show (simLoop _ _ s.toNat _).1.elapsedMs = _
    rw [h.2, hcast, cloneWorld_eq]

/-! ## C6: actions are consumed by the first sub-step only -/

/-- Specification-side runner: perform one `stepWorld` per entry of an
explicit per-sub-step action schedule, concatenating events. -/
def runWithActionSchedule (dtMs : ℚ) :
    List (List PhysicsAction) → PhysicsWorldState →
      PhysicsWorldState × List CollisionEvent
  | [], world => (world, [])
  | acts :: rest, world =>
    let r := stepWorld world acts dtMs
    let r2 := runWithActionSchedule dtMs rest r.1
    (r2.1, r.2 ++ r2.2)

lemma simLoop_eq_schedule (dt : ℚ) :
    ∀ (n : ℕ) (acts : List PhysicsAction) (w : PhysicsWorldState),
      simLoop dt acts (n + 1) w =
        runWithActionSchedule dt (acts :: List.replicate n []) w := by
  have hnil : ∀ (n : ℕ) (w : PhysicsWorldState),
      simLoop dt [] n w = runWithActionSchedule dt (List.replicate n []) w := by
    intro n
    induction n with
    | zero => intro w; simp [simLoop, runWithActionSchedule]
    | succ n ih =>
      intro w
      rw [simLoop, List.replicate_succ, runWithActionSchedule, ih]
  intro n acts w
  rw [simLoop, runWithActionSchedule, hnil]

/-- C6: for every call whose effective step count is at least 2, the
simulation equals running the caller's action list on the first sub-step
and the empty action list on every one of the remaining sub-steps, so no
supplied action is applied more than once per call. -/
theorem actions_first_substep_only (request : PhysicsSimulationRequest)
    (h : 2 ≤ (jsRound (clamp (request.steps.getD DEFAULT_STEPS) DEFAULT_STEPS MAX_STEPS)).toNat) :
    runPhysicsSimulation request =
      { world := (runWithActionSchedule
          (clamp (request.dtMs.getD DEFAULT_DT_MS) MIN_DT_MS MAX_DT_MS)
          (request.actions.getD [] ::
            List.replicate
              ((jsRound (clamp (request.steps.getD DEFAULT_STEPS) DEFAULT_STEPS MAX_STEPS)).toNat - 1)
              [])
          (cloneWorld request.world)).1
        collisions := (runWithActionSchedule
          (clamp (request.dtMs.getD DEFAULT_DT_MS) MIN_DT_MS MAX_DT_MS)
          (request.actions.getD [] ::
            List.replicate
              ((jsRound (clamp (request.steps.getD DEFAULT_STEPS) DEFAULT_STEPS MAX_STEPS)).toNat - 1)
              [])
          (cloneWorld request.world)).2 } := by
  set n := (jsRound (clamp (request.steps.getD DEFAULT_STEPS) DEFAULT_STEPS MAX_STEPS)).toNat with hn
  obtain ⟨m, hm⟩ : ∃ m, n = m + 1 := ⟨n - 1, by omega⟩
  show ({ world := (simLoop _ _ n _).1, collisions := (simLoop _ _ n _).2 } :
      PhysicsSimulationResult) = _
  rw [hm, simLoop_eq_schedule, Nat.add_sub_cancel]

/-- Witness for `actions_first_substep_only`: a concrete two-step request. -/
def witnessRequestC6 : PhysicsSimulationRequest :=
  { world :=
      { tick := 0, elapsedMs := 0, gravity := ⟨0, 0⟩,
        bounds := ⟨⟨0, 0⟩, ⟨100, 100⟩⟩, bodies := [] }
    actions := some []
    dtMs := some 20
    steps := some 2 }

theorem actions_first_substep_only_witness :
    runPhysicsSimulation witnessRequestC6 =
      { world := (runWithActionSchedule
          (clamp (witnessRequestC6.dtMs.getD DEFAULT_DT_MS) MIN_DT_MS MAX_DT_MS)
          (witnessRequestC6.actions.getD [] ::
            List.replicate
              ((jsRound (clamp (witnessRequestC6.steps.getD DEFAULT_STEPS) DEFAULT_STEPS MAX_STEPS)).toNat - 1)
              [])
          (cloneWorld witnessRequestC6.world)).1
        collisions := (runWithActionSchedule
          (clamp (witnessRequestC6.dtMs.getD DEFAULT_DT_MS) MIN_DT_MS MAX_DT_MS)
          (witnessRequestC6.actions.getD [] ::
            List.replicate
              ((jsRound (clamp (witnessRequestC6.steps.getD DEFAULT_STEPS) DEFAULT_STEPS MAX_STEPS)).toNat - 1)
              [])
          (cloneWorld witnessRequestC6.world)).2 } :=
  actions_first_substep_only witnessRequestC6 (by
    norm_num [witnessRequestC6, jsRound, clamp, DEFAULT_STEPS, MAX_STEPS])

/-! ## C9: non-positive mass on a dynamic body means unit inverse mass -/

/-- C9: at the trusted entry the stepper gives a dynamic body with
`mass ≤ 0` the inverse mass `1` instead of `1/mass`, so `applyImpulse`
adds exactly the impulse and `applyForce` adds exactly `force * dt` —
no division by the non-positive mass ever happens. -/
theorem nonpositive_mass_unit_inverse (body : PhysicsBody)
    (impulse force : Vector2) (dtSeconds : ℚ)
    (hdyn : isDynamic body = true) (hmass : body.mass ≤ 0) :
    bodyInverseMass body = 1 ∧
    applyAction [body] (.applyImpulse body.id impulse) dtSeconds =
      [{ body with velocity := vadd body.velocity impulse }] ∧
    applyAction [body] (.applyForce body.id force) dtSeconds =
      [{ body with velocity := vadd body.velocity (scale force dtSeconds) }] := by
  have hinv : bodyInverseMass body = 1 := by
    simp [bodyInverseMass, hdyn, not_lt.2 hmass]
  refine ⟨hinv, ?_, ?_⟩ <;>
    simp [applyAction, lookupBody, updateLast, updateFirst, hdyn, hinv,
      vadd, scale, mul_one]

def witnessBodyC9 : PhysicsBody :=
  { id := "z", position := ⟨0, 0⟩, velocity := ⟨1, 2⟩, halfSize := ⟨1, 1⟩, mass := 0 }

theorem nonpositive_mass_unit_inverse_witness :
    bodyInverseMass witnessBodyC9 = 1 ∧
    applyAction [witnessBodyC9] (.applyImpulse witnessBodyC9.id ⟨3, 4⟩) (1 / 2) =
      [{ witnessBodyC9 with velocity := vadd witnessBodyC9.velocity ⟨3, 4⟩ }] ∧
    applyAction [witnessBodyC9] (.applyForce witnessBodyC9.id ⟨5, 6⟩) (1 / 2) =
      [{ witnessBodyC9 with velocity := vadd witnessBodyC9.velocity (scale ⟨5, 6⟩ (1 / 2)) }] :=
  nonpositive_mass_unit_inverse witnessBodyC9 ⟨3, 4⟩ ⟨5, 6⟩ (1 / 2) rfl
    (by norm_num [witnessBodyC9])

/-! ## C1: boundary-collision `relativeSpeed` -/

lemma clamp01_nonneg (v : ℚ) : 0 ≤ clamp v 0 1 :=
  le_min (by norm_num) (le_max_left 0 v)

lemma getBodyRestitution_nonneg (w : PhysicsWorldState) (b : PhysicsBody) :
    0 ≤ getBodyRestitution w b := clamp01_nonneg _

/-- C1 (amended): each penetrated boundary side whose velocity points
into it emits one event whose `relativeSpeed` is the *post-reflection*
speed, i.e. the body restitution times the absolute pre-reflection
velocity along the impact axis (hypotheses isolate each side). -/
theorem boundary_event_speed_is_post_reflection
    (world : PhysicsWorldState) (body : PhysicsBody)
    (hdyn : isDynamic body = true) :
    (body.position.x - body.halfSize.x < world.bounds.min.x →
      ¬(body.position.x + body.halfSize.x > world.bounds.max.x) →
      ¬(body.position.y - body.halfSize.y < world.bounds.min.y) →
      ¬(body.position.y + body.halfSize.y > world.bounds.max.y) →
      body.velocity.x < 0 →
      (resolveWorldCollision world body).2 =
        [CollisionEvent.mk body.id "__world__" ⟨1, 0⟩
          (world.bounds.min.x - (body.position.x - body.halfSize.x))
          (getBodyRestitution world body * |body.velocity.x|)]) ∧
    (¬(body.position.x - body.halfSize.x < world.bounds.min.x) →
      body.position.x + body.halfSize.x > world.bounds.max.x →
      ¬(body.position.y - body.halfSize.y < world.bounds.min.y) →
      ¬(body.position.y + body.halfSize.y > world.bounds.max.y) →
      body.velocity.x > 0 →
      (resolveWorldCollision world body).2 =
        [CollisionEvent.mk body.id "__world__" ⟨-1, 0⟩
          (body.position.x + body.halfSize.x - world.bounds.max.x)
          (getBodyRestitution world body * |body.velocity.x|)]) ∧
    (¬(body.position.x - body.halfSize.x < world.bounds.min.x) →
      ¬(body.position.x + body.halfSize.x > world.bounds.max.x) →
      body.position.y - body.halfSize.y < world.bounds.min.y →
      ¬(body.position.y + body.halfSize.y > world.bounds.max.y) →
      body.velocity.y < 0 →
      (resolveWorldCollision world body).2 =
        [CollisionEvent.mk body.id "__world__" ⟨0, 1⟩
          (world.bounds.min.y - (body.position.y - body.halfSize.y))
          (getBodyRestitution world body * |body.velocity.y|)]) ∧
    (¬(body.position.x - body.halfSize.x < world.bounds.min.x) →
      ¬(body.position.x + body.halfSize.x > world.bounds.max.x) →
      ¬(body.position.y - body.halfSize.y < world.bounds.min.y) →
      body.position.y + body.halfSize.y > world.bounds.max.y →
      body.velocity.y > 0 →
      (resolveWorldCollision world body).2 =
        [CollisionEvent.mk body.id "__world__" ⟨0, -1⟩
          (body.position.y + body.halfSize.y - world.bounds.max.y)
          (getBodyRestitution world body * |body.velocity.y|)]) := by
  have hr : 0 ≤ getBodyRestitution world body := getBodyRestitution_nonneg world body
  refine ⟨fun h1 h2 h3 h4 hv => ?_, fun h1 h2 h3 h4 hv => ?_,
    fun h1 h2 h3 h4 hv => ?_, fun h1 h2 h3 h4 hv => ?_⟩ <;>
    simp [resolveWorldCollision, hdyn, h1, h2, h3, h4, hv, not_lt.1, lt_asymm hv] <;>
    rw [abs_mul, abs_of_nonneg hr] <;>
    ring

/-- World and body exhibiting the original claim's failure: restitution
1/2, entering the left boundary at 10 units/s. -/
def cexWorldC1 : PhysicsWorldState :=
  { tick := 0, elapsedMs := 0, gravity := ⟨0, 0⟩,
    bounds := ⟨⟨0, 0⟩, ⟨100, 100⟩⟩, bodies := [] }

def cexBodyC1 : PhysicsBody :=
  { id := "b", position := ⟨-1 / 2, 50⟩, velocity := ⟨-10, 0⟩,
    halfSize := ⟨1, 1⟩, mass := 1, restitution := some (1 / 2),
    friction := some 0 }

/-- C1 counterexample: the body penetrates the left side with
pre-reflection velocity `-10` (absolute value `10`), yet the emitted
event carries `relativeSpeed = 5` — the post-reflection speed, not the
pre-reflection one. -/
theorem boundary_event_speed_counterexample :
    cexBodyC1.velocity.x = -10 ∧
    (resolveWorldCollision cexWorldC1 cexBodyC1).2 =
      [CollisionEvent.mk "b" "__world__" ⟨1, 0⟩ (3 / 2) 5] ∧
    (5 : ℚ) ≠ |(-10 : ℚ)| := by
  refine ⟨rfl, ?_, by norm_num⟩
  norm_num [resolveWorldCollision, cexWorldC1, cexBodyC1, isDynamic,
    getBodyRestitution, getBodyFriction, clamp]

theorem boundary_event_speed_is_post_reflection_witness :
    (resolveWorldCollision cexWorldC1 cexBodyC1).2 =
      [CollisionEvent.mk cexBodyC1.id "__world__" ⟨1, 0⟩
        (cexWorldC1.bounds.min.x - (cexBodyC1.position.x - cexBodyC1.halfSize.x))
        (getBodyRestitution cexWorldC1 cexBodyC1 * |cexBodyC1.velocity.x|)] :=
  (boundary_event_speed_is_post_reflection cexWorldC1 cexBodyC1 rfl).1
    (by norm_num [cexWorldC1, cexBodyC1]) (by norm_num [cexWorldC1, cexBodyC1])
    (by norm_num [cexWorldC1, cexBodyC1]) (by norm_num [cexWorldC1, cexBodyC1])
    (by norm_num [cexBodyC1])

/-! ## C2: strictly separating pairs get no impulse and no event -/

/-- The collision normal chosen by `resolveBodyCollision` (axis of the
smaller overlap, signed by `delta`). -/
def pairNormal (bodyA bodyB : PhysicsBody) : Vector2 :=
  if bodyA.halfSize.x + bodyB.halfSize.x - |(subtract bodyB.position bodyA.position).x| <
      bodyA.halfSize.y + bodyB.halfSize.y - |(subtract bodyB.position bodyA.position).y|
  then ⟨if (subtract bodyB.position bodyA.position).x ≥ 0 then 1 else -1, 0⟩
  else ⟨0, if (subtract bodyB.position bodyA.position).y ≥ 0 then 1 else -1⟩

/-- The penetration depth chosen by `resolveBodyCollision` (the smaller
overlap). -/
def pairDepth (bodyA bodyB : PhysicsBody) : ℚ :=
  if bodyA.halfSize.x + bodyB.halfSize.x - |(subtract bodyB.position bodyA.position).x| <
      bodyA.halfSize.y + bodyB.halfSize.y - |(subtract bodyB.position bodyA.position).y|
  then bodyA.halfSize.x + bodyB.halfSize.x - |(subtract bodyB.position bodyA.position).x|
  else bodyA.halfSize.y + bodyB.halfSize.y - |(subtract bodyB.position bodyA.position).y|

/-- C2 (amended): for an overlapping pair whose relative velocity along
the chosen normal is *strictly* separating (`> 0`), no impulse is applied
to either body and no event is recorded; the inverse-mass-proportional
positional correction (which precedes the separating-velocity check)
still takes place whenever the pair passes the inverse-mass guard. -/
theorem separating_pair_no_impulse_no_event
    (world : PhysicsWorldState) (bodyA bodyB : PhysicsBody)
    (hx : 0 < bodyA.halfSize.x + bodyB.halfSize.x - |(subtract bodyB.position bodyA.position).x|)
    (hy : 0 < bodyA.halfSize.y + bodyB.halfSize.y - |(subtract bodyB.position bodyA.position).y|)
    (hsep : 0 < dot (subtract bodyB.velocity bodyA.velocity) (pairNormal bodyA bodyB)) :
    (resolveBodyCollision world bodyA bodyB).2.2 = [] ∧
    (resolveBodyCollision world bodyA bodyB).1.velocity = bodyA.velocity ∧
    (resolveBodyCollision world bodyA bodyB).2.1.velocity = bodyB.velocity ∧
    (EPSILON < bodyInverseMass bodyA + bodyInverseMass bodyB →
      (resolveBodyCollision world bodyA bodyB).1.position =
        (if 0 < bodyInverseMass bodyA then
          Vector2.mk
            (bodyA.position.x - (scale (pairNormal bodyA bodyB) (pairDepth bodyA bodyB)).x *
              (bodyInverseMass bodyA / (bodyInverseMass bodyA + bodyInverseMass bodyB)))
            (bodyA.position.y - (scale (pairNormal bodyA bodyB) (pairDepth bodyA bodyB)).y *
              (bodyInverseMass bodyA / (bodyInverseMass bodyA + bodyInverseMass bodyB)))
        else bodyA.position) ∧
      (resolveBodyCollision world bodyA bodyB).2.1.position =
        (if 0 < bodyInverseMass bodyB then
          Vector2.mk
            (bodyB.position.x + (scale (pairNormal bodyA bodyB) (pairDepth bodyA bodyB)).x *
              (bodyInverseMass bodyB / (bodyInverseMass bodyA + bodyInverseMass bodyB)))
            (bodyB.position.y + (scale (pairNormal bodyA bodyB) (pairDepth bodyA bodyB)).y *
              (bodyInverseMass bodyB / (bodyInverseMass bodyA + bodyInverseMass bodyB)))
        else bodyB.position)) := by
  have hnotor : ¬(bodyA.halfSize.x + bodyB.halfSize.x -
      |(subtract bodyB.position bodyA.position).x| ≤ 0 ∨
      bodyA.halfSize.y + bodyB.halfSize.y -
      |(subtract bodyB.position bodyA.position).y| ≤ 0) := by
    push_neg
    exact ⟨hx, hy⟩
  by_cases heps : bodyInverseMass bodyA + bodyInverseMass bodyB ≤ EPSILON
  · rw [resolveBodyCollision]
    simp [hnotor, heps, not_lt.2 heps]
  · rw [resolveBodyCollision]
    simp only [hnotor, heps, if_false, ite_false]
    rw [if_pos]
    · exact ⟨rfl, rfl, rfl, fun _ => ⟨rfl, rfl⟩⟩
    · simpa [pairNormal] using hsep

def cexWorldC2 : PhysicsWorldState :=
  { tick := 0, elapsedMs := 0, gravity := ⟨0, 0⟩,
    bounds := ⟨⟨0, 0⟩, ⟨100, 100⟩⟩, bodies := [] }

def cexBodyA2 : PhysicsBody :=
  { id := "a", position := ⟨0, 0⟩, velocity := ⟨0, 0⟩, halfSize := ⟨1, 1⟩,
    mass := 1, restitution := some 0, friction := some 0 }

def cexBodyB2 : PhysicsBody :=
  { id := "b", position := ⟨1, 0⟩, velocity := ⟨0, 0⟩, halfSize := ⟨1, 1⟩,
    mass := 1, restitution := some 0, friction := some 0 }

/-- C2 counterexample: an overlapping resting pair has relative normal
velocity exactly `0` (which is `≥ 0`, i.e. separating in the claim's
sense), yet `resolveBodyCollision` records a collision event for it
(velocities stay unchanged, so the impulse half of the claim holds). -/
theorem separating_pair_counterexample :
    dot (subtract cexBodyB2.velocity cexBodyA2.velocity) (pairNormal cexBodyA2 cexBodyB2) = 0 ∧
    (resolveBodyCollision cexWorldC2 cexBodyA2 cexBodyB2).2.2 =
      [CollisionEvent.mk "a" "b" ⟨1, 0⟩ 1 0] ∧
    (resolveBodyCollision cexWorldC2 cexBodyA2 cexBodyB2).1.velocity = cexBodyA2.velocity ∧
    (resolveBodyCollision cexWorldC2 cexBodyA2 cexBodyB2).2.1.velocity = cexBodyB2.velocity := by
  refine ⟨by norm_num [dot, subtract, pairNormal, cexBodyA2, cexBodyB2], ?_⟩
  norm_num [resolveBodyCollision, cexWorldC2, cexBodyA2, cexBodyB2, EPSILON,
    bodyInverseMass, isDynamic, getBodyRestitution, getBodyFriction, clamp,
    dot, subtract, scale, normalize, vlength, sqrtQ, Nat.sqrt_zero]

def witBodyA2 : PhysicsBody :=
  { id := "a", position := ⟨0, 0⟩, velocity := ⟨-1, 0⟩, halfSize := ⟨1, 1⟩,
    mass := 1, restitution := some 0, friction := some 0 }

def witBodyB2 : PhysicsBody :=
  { id := "b", position := ⟨1, 0⟩, velocity := ⟨1, 0⟩, halfSize := ⟨1, 1⟩,
    mass := 1, restitution := some 0, friction := some 0 }

theorem separating_pair_no_impulse_no_event_witness :
    (resolveBodyCollision cexWorldC2 witBodyA2 witBodyB2).2.2 = [] ∧
    (resolveBodyCollision cexWorldC2 witBodyA2 witBodyB2).1.velocity = witBodyA2.velocity ∧
    (resolveBodyCollision cexWorldC2 witBodyA2 witBodyB2).2.1.velocity = witBodyB2.velocity ∧
    (EPSILON < bodyInverseMass witBodyA2 + bodyInverseMass witBodyB2 →
      (resolveBodyCollision cexWorldC2 witBodyA2 witBodyB2).1.position =
        (if 0 < bodyInverseMass witBodyA2 then
          Vector2.mk
            (witBodyA2.position.x - (scale (pairNormal witBodyA2 witBodyB2) (pairDepth witBodyA2 witBodyB2)).x *
              (bodyInverseMass witBodyA2 / (bodyInverseMass witBodyA2 + bodyInverseMass witBodyB2)))
            (witBodyA2.position.y - (scale (pairNormal witBodyA2 witBodyB2) (pairDepth witBodyA2 witBodyB2)).y *
              (bodyInverseMass witBodyA2 / (bodyInverseMass witBodyA2 + bodyInverseMass witBodyB2)))
        else witBodyA2.position) ∧
      (resolveBodyCollision cexWorldC2 witBodyA2 witBodyB2).2.1.position =
        (if 0 < bodyInverseMass witBodyB2 then
          Vector2.mk
            (witBodyB2.position.x + (scale (pairNormal witBodyA2 witBodyB2) (pairDepth witBodyA2 witBodyB2)).x *
              (bodyInverseMass witBodyB2 / (bodyInverseMass witBodyA2 + bodyInverseMass witBodyB2)))
            (witBodyB2.position.y + (scale (pairNormal witBodyA2 witBodyB2) (pairDepth witBodyA2 witBodyB2)).y *
              (bodyInverseMass witBodyB2 / (bodyInverseMass witBodyA2 + bodyInverseMass witBodyB2)))
        else witBodyB2.position)) :=
  separating_pair_no_impulse_no_event cexWorldC2 witBodyA2 witBodyB2
    (by norm_num [subtract, witBodyA2, witBodyB2])
    (by norm_num [subtract, witBodyA2, witBodyB2])
    (by norm_num [dot, subtract, pairNormal, witBodyA2, witBodyB2])

/-! ## C5: symmetric elastic collision swaps velocities -/

lemma resolveWorldCollision_inside (world : PhysicsWorldState) (body : PhysicsBody)
    (h1 : ¬(body.position.x - body.halfSize.x < world.bounds.min.x))
    (h2 : ¬(body.position.x + body.halfSize.x > world.bounds.max.x))
    (h3 : ¬(body.position.y - body.halfSize.y < world.bounds.min.y))
    (h4 : ¬(body.position.y + body.halfSize.y > world.bounds.max.y)) :
    resolveWorldCollision world body = (body, []) := by
  by_cases hd : isDynamic body
  · simp [resolveWorldCollision, hd, h1, h2, h3, h4]
  · simp [resolveWorldCollision, hd]

def bodyA5 (y : ℚ) : PhysicsBody :=
  { id := "a", position := ⟨4, y⟩, velocity := ⟨10, 0⟩, halfSize := ⟨1, 1⟩,
    mass := 1, restitution := some 1, friction := some 0, linearDamping := some 0 }

def bodyB5 (y : ℚ) : PhysicsBody :=
  { id := "b", position := ⟨6, y⟩, velocity := ⟨-10, 0⟩, halfSize := ⟨1, 1⟩,
    mass := 1, restitution := some 1, friction := some 0, linearDamping := some 0 }

/-- `bodyA5` after free integration over 20 ms. -/
def bodyA5mid (y : ℚ) : PhysicsBody :=
  { id := "a", position := ⟨21 / 5, y⟩, velocity := ⟨10, 0⟩, halfSize := ⟨1, 1⟩,
    mass := 1, restitution := some 1, friction := some 0, linearDamping := some 0 }

def bodyB5mid (y : ℚ) : PhysicsBody :=
  { id := "b", position := ⟨29 / 5, y⟩, velocity := ⟨-10, 0⟩, halfSize := ⟨1, 1⟩,
    mass := 1, restitution := some 1, friction := some 0, linearDamping := some 0 }

/-- `bodyA5` after the elastic pair resolution: velocity swapped. -/
def bodyA5fin (y : ℚ) : PhysicsBody :=
  { id := "a", position := ⟨4, y⟩, velocity := ⟨-10, 0⟩, halfSize := ⟨1, 1⟩,
    mass := 1, restitution := some 1, friction := some 0, linearDamping := some 0 }

def bodyB5fin (y : ℚ) : PhysicsBody :=
  { id := "b", position := ⟨6, y⟩, velocity := ⟨10, 0⟩, halfSize := ⟨1, 1⟩,
    mass := 1, restitution := some 1, friction := some 0, linearDamping := some 0 }

def world5 (y bx0 by0 bx1 by1 t e : ℚ) : PhysicsWorldState :=
  { tick := t, elapsedMs := e, gravity := ⟨0, 0⟩,
    bounds := ⟨⟨bx0, by0⟩, ⟨bx1, by1⟩⟩, bodies := [bodyA5 y, bodyB5 y] }

def req5 (y bx0 by0 bx1 by1 t e : ℚ) : PhysicsSimulationRequest :=
  { world := world5 y bx0 by0 bx1 by1 t e, actions := some [],
    dtMs := some 20, steps := some 1 }

lemma c5_integrateA (w : PhysicsWorldState) (y : ℚ) (hw : w.gravity = ⟨0, 0⟩) :
    integrateBody w (20 / 1000) (bodyA5 y) = bodyA5mid y := by
  norm_num [integrateBody, isDynamic, getBodyLinearDamping, clamp, bodyA5, bodyA5mid, hw]

lemma c5_integrateB (w : PhysicsWorldState) (y : ℚ) (hw : w.gravity = ⟨0, 0⟩) :
    integrateBody w (20 / 1000) (bodyB5 y) = bodyB5mid y := by
  norm_num [integrateBody, isDynamic, getBodyLinearDamping, clamp, bodyB5, bodyB5mid, hw]

lemma c5_pair (w : PhysicsWorldState) (y : ℚ) :
    resolveBodyCollision w (bodyA5mid y) (bodyB5mid y) =
      (bodyA5fin y, bodyB5fin y, [CollisionEvent.mk "a" "b" ⟨1, 0⟩ (2 / 5) 20]) := by
  have h85 : |(8 / 5 : ℚ)| = 8 / 5 := by norm_num
  norm_num [resolveBodyCollision, bodyInverseMass, isDynamic, getBodyRestitution,
    getBodyFriction, clamp, EPSILON, dot, subtract, scale, normalize, vlength,
    sqrtQ, bodyA5mid, bodyB5mid, bodyA5fin, bodyB5fin, sub_self, h85]

lemma c5_noBoundaryA (w : PhysicsWorldState) (y : ℚ)
    (h1 : w.bounds.min.x ≤ 16 / 5) (h2 : 26 / 5 ≤ w.bounds.max.x)
    (h3 : w.bounds.min.y ≤ y - 1) (h4 : y + 1 ≤ w.bounds.max.y) :
    resolveWorldCollision w (bodyA5mid y) = (bodyA5mid y, []) :=
  resolveWorldCollision_inside _ _
    (by simp [bodyA5mid]; linarith) (by simp [bodyA5mid]; linarith)
    (by simp [bodyA5mid]; linarith) (by simp [bodyA5mid]; linarith)

lemma c5_noBoundaryB (w : PhysicsWorldState) (y : ℚ)
    (h1 : w.bounds.min.x ≤ 24 / 5) (h2 : 34 / 5 ≤ w.bounds.max.x)
    (h3 : w.bounds.min.y ≤ y - 1) (h4 : y + 1 ≤ w.bounds.max.y) :
    resolveWorldCollision w (bodyB5mid y) = (bodyB5mid y, []) :=
  resolveWorldCollision_inside _ _
    (by simp [bodyB5mid]; linarith) (by simp [bodyB5mid]; linarith)
    (by simp [bodyB5mid]; linarith) (by simp [bodyB5mid]; linarith)

lemma c5_step (y bx0 by0 bx1 by1 t e : ℚ)
    (hx0 : bx0 ≤ 3) (hx1 : 7 ≤ bx1) (hy0 : by0 ≤ y - 1) (hy1 : y + 1 ≤ by1) :
    stepWorld (world5 y bx0 by0 bx1 by1 t e) [] 20 =
      ({ world5 y bx0 by0 bx1 by1 t e with
          bodies := [bodyA5fin y, bodyB5fin y],
          tick := t + 1, elapsedMs := e + 20 },
       [CollisionEvent.mk "a" "b" ⟨1, 0⟩ (2 / 5) 20]) := by
  have hba : ¬(("b" : String) < "a") := by simp; decide
  have hA : (bodyA5mid y).id = "a" := rfl
  have hB : (bodyB5mid y).id = "b" := rfl
  have hdA : isDynamic (bodyA5mid y) = true := rfl
  have hdB : isDynamic (bodyB5mid y) = true := rfl
  have hpi : pairIndices 2 = [(0, 1)] := rfl
  have hrange : List.range 2 = [0, 1] := rfl
  have h01 : ((0 : ℕ) == 1) = false := rfl
  have h10 : ((1 : ℕ) == 0) = false := rfl
  simp only [stepWorld, cloneWorld_eq, List.foldl_nil]
  rw [integrateBodies]
  simp only [show (world5 y bx0 by0 bx1 by1 t e).bodies = [bodyA5 y, bodyB5 y] from rfl,
    List.map_cons, List.map_nil]
  rw [c5_integrateA _ y rfl, c5_integrateB _ y rfl]
  rw [c5_noBoundaryA _ y (by simp [world5]; linarith) (by simp [world5]; linarith)
        (by simp [world5]; linarith) (by simp [world5]; linarith),
      c5_noBoundaryB _ y (by simp [world5]; linarith) (by simp [world5]; linarith)
        (by simp [world5]; linarith) (by simp [world5]; linarith)]
  simp only [List.map_cons, List.map_nil, List.flatten, List.append_nil, List.nil_append,
    List.enum, List.enumFrom, sortBodiesById, List.foldl_cons, List.foldl_nil,
    insertByBodyId, hA, hB, hba, if_false, reduceIte]
  simp only [resolvePairs, List.length_cons, List.length_nil, Nat.reduceAdd, hpi,
    List.foldl_cons, List.foldl_nil, List.get?_cons_zero, List.get?_cons_succ,
    List.get?_nil, hdA, hdB, Bool.not_true, Bool.false_and, Bool.and_false,
    Bool.false_eq_true, if_false, reduceIte]
  rw [c5_pair _ y]
  simp only [List.set, restoreBodyOrder, hrange, List.filterMap, List.find?,
    Option.map_some, beq_self_eq_true, h01, h10, reduceIte]
  norm_num [world5]

/-- C5: in a world with zero gravity, zero per-body linear damping and
bounds wide enough that no boundary is hit, the two touching unit-mass
bodies with velocities +10 and -10, restitution 1 and friction 0 exactly swap
x-velocities over one 20 ms step, and exactly one pairwise collision
event is recorded. -/
theorem symmetric_elastic_swap (y bx0 by0 bx1 by1 t e : ℚ)
    (hx0 : bx0 ≤ 3) (hx1 : 7 ≤ bx1) (hy0 : by0 ≤ y - 1) (hy1 : y + 1 ≤ by1) :
    ((runPhysicsSimulation (req5 y bx0 by0 bx1 by1 t e)).world.bodies.map
        (fun b => (b.id, b.velocity)) = [("a", ⟨-10, 0⟩), ("b", ⟨10, 0⟩)]) ∧
    (runPhysicsSimulation (req5 y bx0 by0 bx1 by1 t e)).collisions =
      [CollisionEvent.mk "a" "b" ⟨1, 0⟩ (2 / 5) 20] := by
  have hstep := c5_step y bx0 by0 bx1 by1 t e hx0 hx1 hy0 hy1
  have hdt : clamp ((req5 y bx0 by0 bx1 by1 t e).dtMs.getD DEFAULT_DT_MS)
      MIN_DT_MS MAX_DT_MS = 20 := by
    norm_num [req5, clamp, MIN_DT_MS, MAX_DT_MS]
  have hsteps : (jsRound (clamp ((req5 y bx0 by0 bx1 by1 t e).steps.getD DEFAULT_STEPS)
      DEFAULT_STEPS MAX_STEPS)).toNat = 1 := by
    norm_num [req5, jsRound, clamp, DEFAULT_STEPS, MAX_STEPS]
  simp only [runPhysicsSimulation, hdt, hsteps,
    show (req5 y bx0 by0 bx1 by1 t e).actions = some [] from rfl,
    show (req5 y bx0 by0 bx1 by1 t e).world = world5 y bx0 by0 bx1 by1 t e from rfl,
    Option.getD_some, cloneWorld_eq, simLoop, hstep]
  simp [bodyA5fin, bodyB5fin]

theorem symmetric_elastic_swap_witness :
    ((runPhysicsSimulation (req5 0 (-100) (-100) 100 100 0 0)).world.bodies.map
        (fun b => (b.id, b.velocity)) = [("a", ⟨-10, 0⟩), ("b", ⟨10, 0⟩)]) ∧
    (runPhysicsSimulation (req5 0 (-100) (-100) 100 100 0 0)).collisions =
      [CollisionEvent.mk "a" "b" ⟨1, 0⟩ (2 / 5) 20] :=
  symmetric_elastic_swap 0 (-100) (-100) 100 100 0 0
    (by norm_num) (by norm_num) (by norm_num) (by norm_num)

/-! ## Per-body structural lemmas for the preservation arguments -/

lemma integrateBody_id (w : PhysicsWorldState) (dt : ℚ) (b : PhysicsBody) :
    (integrateBody w dt b).id = b.id ∧
    (integrateBody w dt b).isStatic = b.isStatic ∧
    (integrateBody w dt b).restitution = b.restitution ∧
    (integrateBody w dt b).friction = b.friction ∧
    (integrateBody w dt b).linearDamping = b.linearDamping := by
  unfold integrateBody
  split <;> simp

lemma integrateBody_static (w : PhysicsWorldState) (dt : ℚ) (b : PhysicsBody)
    (hs : b.isStatic = true) : integrateBody w dt b = b := by
  simp [integrateBody, isDynamic, hs]

lemma resolveWorldCollision_id (w : PhysicsWorldState) (b : PhysicsBody) :
    (resolveWorldCollision w b).1.id = b.id ∧
    (resolveWorldCollision w b).1.isStatic = b.isStatic ∧
    (resolveWorldCollision w b).1.restitution = b.restitution ∧
    (resolveWorldCollision w b).1.friction = b.friction ∧
    (resolveWorldCollision w b).1.linearDamping = b.linearDamping := by
  unfold resolveWorldCollision
  split <;> simp

lemma resolveWorldCollision_static (w : PhysicsWorldState) (b : PhysicsBody)
    (hs : b.isStatic = true) : resolveWorldCollision w b = (b, []) := by
  simp [resolveWorldCollision, isDynamic, hs]

lemma resolveBodyCollision_fst_id (w : PhysicsWorldState) (a b : PhysicsBody) :
    (resolveBodyCollision w a b).1.id = a.id ∧
    (resolveBodyCollision w a b).1.isStatic = a.isStatic ∧
    (resolveBodyCollision w a b).1.restitution = a.restitution ∧
    (resolveBodyCollision w a b).1.friction = a.friction ∧
    (resolveBodyCollision w a b).1.linearDamping = a.linearDamping := by
  unfold resolveBodyCollision
  dsimp only
  split_ifs <;> simp

lemma resolveBodyCollision_snd_id (w : PhysicsWorldState) (a b : PhysicsBody) :
    (resolveBodyCollision w a b).2.1.id = b.id ∧
    (resolveBodyCollision w a b).2.1.isStatic = b.isStatic ∧
    (resolveBodyCollision w a b).2.1.restitution = b.restitution ∧
    (resolveBodyCollision w a b).2.1.friction = b.friction ∧
    (resolveBodyCollision w a b).2.1.linearDamping = b.linearDamping := by
  unfold resolveBodyCollision
  dsimp only
  split_ifs <;> simp

lemma resolveBodyCollision_static_left (w : PhysicsWorldState) (a b : PhysicsBody)
    (hs : a.isStatic = true) : (resolveBodyCollision w a b).1 = a := by
  have hinv : bodyInverseMass a = 0 := by simp [bodyInverseMass, isDynamic, hs]
  unfold resolveBodyCollision
  dsimp only
  split_ifs <;> simp_all [hinv] <;> rw [← hs]

lemma resolveBodyCollision_static_right (w : PhysicsWorldState) (a b : PhysicsBody)
    (hs : b.isStatic = true) : (resolveBodyCollision w a b).2.1 = b := by
  have hinv : bodyInverseMass b = 0 := by simp [bodyInverseMass, isDynamic, hs]
  unfold resolveBodyCollision
  dsimp only
  split_ifs <;> simp_all [hinv] <;> rw [← hs]

/-! ## Membership lemmas for the stepper pipeline -/

lemma lookupBody_mem {bodies : List PhysicsBody} {bodyId : String} {t : PhysicsBody}
    (h : lookupBody bodies bodyId = some t) : t ∈ bodies ∧ t.id = bodyId := by
  have hmem := List.mem_of_getLast?_eq_some h
  rw [List.mem_filter] at hmem
  exact ⟨hmem.1, by simpa using hmem.2⟩

lemma updateFirst_mem {p : PhysicsBody → Bool} {f : PhysicsBody → PhysicsBody}
    {l : List PhysicsBody} {b : PhysicsBody} (h : b ∈ updateFirst p f l) :
    b ∈ l ∨ ∃ t ∈ l, p t = true ∧ b = f t := by
  induction l with
  | nil => simp [updateFirst] at h
  | cons x xs ih =>
    rw [updateFirst] at h
    by_cases hp : p x
    · rw [if_pos hp] at h
      rcases List.mem_cons.1 h with h | h
      · exact Or.inr ⟨x, List.mem_cons_self x xs, hp, h⟩
      · exact Or.inl (List.mem_cons_of_mem x h)
    · rw [if_neg hp] at h
      rcases List.mem_cons.1 h with h | h
      · exact Or.inl (by simp [h])
      · rcases ih h with h2 | ⟨t, ht, hpt, hb⟩
        · exact Or.inl (List.mem_cons_of_mem x h2)
        · exact Or.inr ⟨t, List.mem_cons_of_mem x ht, hpt, hb⟩

lemma updateLast_mem {p : PhysicsBody → Bool} {f : PhysicsBody → PhysicsBody}
    {l : List PhysicsBody} {b : PhysicsBody} (h : b ∈ updateLast p f l) :
    b ∈ l ∨ ∃ t ∈ l, p t = true ∧ b = f t := by
  rw [updateLast, List.mem_reverse] at h
  rcases updateFirst_mem h with h2 | ⟨t, ht, hpt, hb⟩
  · exact Or.inl (List.mem_reverse.1 h2)
  · exact Or.inr ⟨t, List.mem_reverse.1 ht, hpt, hb⟩

lemma insertByBodyId_mem {x e : ℕ × PhysicsBody} {l : List (ℕ × PhysicsBody)}
    (h : e ∈ insertByBodyId x l) : e = x ∨ e ∈ l := by
  induction l with
  | nil => simp [insertByBodyId] at h; exact Or.inl h
  | cons y ys ih =>
    rw [insertByBodyId] at h
    split at h
    · rcases List.mem_cons.1 h with h | h
      · exact Or.inl h
      · exact Or.inr h
    · rcases List.mem_cons.1 h with h | h
      · exact Or.inr (by simp [h])
      · rcases ih h with h2 | h2
        · exact Or.inl h2
        · exact Or.inr (List.mem_cons_of_mem y h2)

lemma sortBodiesById_mem {entries : List (ℕ × PhysicsBody)} {e : ℕ × PhysicsBody}
    (h : e ∈ sortBodiesById entries) : e ∈ entries := by
  rw [sortBodiesById] at h
  suffices h2 : ∀ (l acc : List (ℕ × PhysicsBody)),
      e ∈ l.foldl (fun acc x => insertByBodyId x acc) acc → e ∈ acc ∨ e ∈ l by
    rcases h2 entries [] h with h3 | h3
    · simp at h3
    · exact h3
  intro l
  induction l with
  | nil => intro acc h3; exact Or.inl h3
  | cons x xs ih =>
    intro acc h3
    rcases ih _ h3 with h4 | h4
    · rcases insertByBodyId_mem h4 with h5 | h5
      · exact Or.inr (by simp [h5])
      · exact Or.inl h5
    · exact Or.inr (List.mem_cons_of_mem x h4)

lemma enum_snd_mem {l : List PhysicsBody} {e : ℕ × PhysicsBody} (h : e ∈ l.enum) :
    e.2 ∈ l := by
  have := List.enum_map_snd l
  rw [← this]
  exact List.mem_map_of_mem Prod.snd h

lemma restoreBodyOrder_mem {count : ℕ} {entries : List (ℕ × PhysicsBody)}
    {b : PhysicsBody} (h : b ∈ restoreBodyOrder count entries) :
    ∃ e ∈ entries, b = e.2 := by
  rw [restoreBodyOrder] at h
  rcases List.mem_filterMap.1 h with ⟨k, _, hfind⟩
  rcases Option.map_eq_some'.1 hfind with ⟨e, hfind2, hb⟩
  exact ⟨e, List.mem_of_find?_eq_some hfind2, hb.symm⟩

/-! ## Generic body-predicate preservation through the stepper -/

/-- An update-compatibility condition: whenever an action mutates the
looked-up (necessarily dynamic) target through the `bodyById` map, the
predicate survives overwriting the target's velocity or position. -/
def UpdClosed (P : PhysicsBody → Prop) : Prop :=
  ∀ (bodies : List PhysicsBody) (bodyId : String) (target : PhysicsBody) (v : Vector2),
    lookupBody bodies bodyId = some target → isDynamic target = true →
    (∀ b ∈ bodies, P b) → ∀ t ∈ bodies, (t.id == bodyId) = true →
    P { t with velocity := v } ∧ P { t with position := v }

lemma applyAction_preserve (P : PhysicsBody → Prop) (hupd : UpdClosed P)
    (bodies : List PhysicsBody) (action : PhysicsAction) (dt : ℚ)
    (hall : ∀ b ∈ bodies, P b)
    (hspawn : ∀ b0, action = PhysicsAction.spawnBody b0 → P b0) :
    ∀ b ∈ applyAction bodies action dt, P b := by
  intro b hb
  cases action with
  | spawnBody b0 =>
    rw [applyAction] at hb
    split at hb
    · exact hall b hb
    · rcases List.mem_append.1 hb with h | h
      · exact hall b h
      · simp only [List.mem_singleton] at h
        rw [h, cloneBody_eq]
        exact hspawn b0 rfl
  | removeBody bodyId =>
    rw [applyAction] at hb
    split at hb
    · exact hall b hb
    · exact hall b (List.mem_filter.1 hb).1
  | applyImpulse bodyId imp =>
    rw [applyAction] at hb
    split at hb
    · exact hall b hb
    · next target heq =>
      split at hb
      · exact hall b hb
      · next hguard =>
        have hdyn : isDynamic target = true := by
          revert hguard; cases isDynamic target <;> simp
        rcases updateLast_mem hb with h | ⟨t, ht, hpt, hbft⟩
        · exact hall b h
        · rw [hbft]
          exact (hupd bodies bodyId target _ heq hdyn hall t ht hpt).1
  | applyForce bodyId force =>
    rw [applyAction] at hb
    split at hb
    · exact hall b hb
    · next target heq =>
      split at hb
      · exact hall b hb
      · next hguard =>
        have hdyn : isDynamic target = true := by
          revert hguard; cases isDynamic target <;> simp
        rcases updateLast_mem hb with h | ⟨t, ht, hpt, hbft⟩
        · exact hall b h
        · rw [hbft]
          exact (hupd bodies bodyId target _ heq hdyn hall t ht hpt).1
  | setVelocity bodyId v =>
    rw [applyAction] at hb
    split at hb
    · exact hall b hb
    · next target heq =>
      split at hb
      · exact hall b hb
      · next hguard =>
        have hdyn : isDynamic target = true := by
          revert hguard; cases isDynamic target <;> simp
        rcases updateLast_mem hb with h | ⟨t, ht, hpt, hbft⟩
        · exact hall b h
        · rw [hbft]
          exact (hupd bodies bodyId target v heq hdyn hall t ht hpt).1
  | teleport bodyId p =>
    rw [applyAction] at hb
    split at hb
    · exact hall b hb
    · next target heq =>
      split at hb
      · exact hall b hb
      · next hguard =>
        have hdyn : isDynamic target = true := by
          revert hguard; cases isDynamic target <;> simp
        rcases updateLast_mem hb with h | ⟨t, ht, hpt, hbft⟩
        · exact hall b h
        · rw [hbft]
          exact (hupd bodies bodyId target p heq hdyn hall t ht hpt).2

lemma foldl_applyAction_preserve (P : PhysicsBody → Prop) (hupd : UpdClosed P) (dt : ℚ) :
    ∀ (acts : List PhysicsAction) (bodies : List PhysicsBody),
      (∀ b ∈ bodies, P b) → (∀ b0, PhysicsAction.spawnBody b0 ∈ acts → P b0) →
      ∀ b ∈ acts.foldl (fun bs a => applyAction bs a dt) bodies, P b := by
  intro acts
  induction acts with
  | nil =>
    intro bodies hall _ b hb
    rw [List.foldl_nil] at hb
    exact hall b hb
  | cons a rest ih =>
    intro bodies hall hspawn b hb
    rw [List.foldl_cons] at hb
    refine ih (applyAction bodies a dt)
      (applyAction_preserve P hupd bodies a dt hall ?_) ?_ b hb
    · intro b0 h0
      exact hspawn b0 (h0 ▸ List.mem_cons_self a rest)
    · intro b0 h0
      exact hspawn b0 (List.mem_cons_of_mem a h0)

lemma resolvePairs_preserve (P : PhysicsBody → Prop)
    (w : PhysicsWorldState)
    (hrba : ∀ a b, P a → P (resolveBodyCollision w a b).1)
    (hrbb : ∀ a b, P b → P (resolveBodyCollision w a b).2.1)
    (entries : List (ℕ × PhysicsBody)) (hall : ∀ e ∈ entries, P e.2) :
    ∀ e ∈ (resolvePairs w entries).1, P e.2 := by
  rw [resolvePairs]
  generalize pairIndices entries.length = idxs
  suffices h : ∀ (idxs : List (ℕ × ℕ)) (acc : List (ℕ × PhysicsBody) × List CollisionEvent),
      (∀ e ∈ acc.1, P e.2) →
      ∀ e ∈ (idxs.foldl (fun acc ij =>
        match acc.1.get? ij.1, acc.1.get? ij.2 with
        | some a, some b =>
          if !(isDynamic a.2) && !(isDynamic b.2) then acc
          else
            let r := resolveBodyCollision w a.2 b.2
            ((acc.1.set ij.1 (a.1, r.1)).set ij.2 (b.1, r.2.1), acc.2 ++ r.2.2)
        | _, _ => acc) acc).1, P e.2 by
    exact h idxs (entries, []) hall
  intro idxs
  induction idxs with
  | nil => intro acc hacc e he; rw [List.foldl_nil] at he; exact hacc e he
  | cons ij rest ih =>
    intro acc hacc e he
    rw [List.foldl_cons] at he
    refine ih _ ?_ e he
    intro e2 he2
    rcases hget1 : acc.1.get? ij.1 with _ | a <;> rcases hget2 : acc.1.get? ij.2 with _ | b <;>
      simp only [hget1, hget2] at he2
    · exact hacc e2 he2
    · exact hacc e2 he2
    · exact hacc e2 he2
    · split at he2
      · exact hacc e2 he2
      · rcases List.mem_or_eq_of_mem_set he2 with h2 | h2
        · rcases List.mem_or_eq_of_mem_set h2 with h3 | h3
          · exact hacc e2 h3
          · rw [h3]
            exact hrba a.2 b.2 (hacc a (List.get?_mem hget1))
        · rw [h2]
          exact hrbb a.2 b.2 (hacc b (List.get?_mem hget2))

lemma stepWorld_preserve (P : PhysicsBody → Prop) (hupd : UpdClosed P)
    (hint : ∀ (w : PhysicsWorldState) (dt : ℚ) (b : PhysicsBody), P b → P (integrateBody w dt b))
    (hrw : ∀ (w : PhysicsWorldState) (b : PhysicsBody), P b → P (resolveWorldCollision w b).1)
    (hrba : ∀ (w : PhysicsWorldState) (a b : PhysicsBody), P a → P (resolveBodyCollision w a b).1)
    (hrbb : ∀ (w : PhysicsWorldState) (a b : PhysicsBody), P b → P (resolveBodyCollision w a b).2.1)
    (w : PhysicsWorldState) (acts : List PhysicsAction) (dt : ℚ)
    (hall : ∀ b ∈ w.bodies, P b)
    (hspawn : ∀ b0, PhysicsAction.spawnBody b0 ∈ acts → P b0) :
    ∀ b ∈ (stepWorld w acts dt).1.bodies, P b := by
  intro b hb
  simp only [stepWorld, integrateBodies, cloneWorld_eq] at hb
  rcases restoreBodyOrder_mem hb with ⟨e, he, hbe⟩
  rw [hbe]
  refine resolvePairs_preserve P _ (fun a b => hrba _ a b) (fun a b => hrbb _ a b) _ ?_ e he
  intro e2 he2
  have h2 := enum_snd_mem (sortBodiesById_mem he2)
  rcases List.mem_map.1 h2 with ⟨pr, hpr, heq⟩
  rcases List.mem_map.1 hpr with ⟨a, ha, heqa⟩
  rw [← heq, ← heqa]
  refine hrw _ a ?_
  rcases List.mem_map.1 ha with ⟨c, hc, heqc⟩
  rw [← heqc]
  refine hint _ _ c ?_
  exact foldl_applyAction_preserve P hupd _ acts w.bodies hall hspawn c hc

lemma runPhysicsSimulation_preserve (P : PhysicsBody → Prop) (hupd : UpdClosed P)
    (hint : ∀ (w : PhysicsWorldState) (dt : ℚ) (b : PhysicsBody), P b → P (integrateBody w dt b))
    (hrw : ∀ (w : PhysicsWorldState) (b : PhysicsBody), P b → P (resolveWorldCollision w b).1)
    (hrba : ∀ (w : PhysicsWorldState) (a b : PhysicsBody), P a → P (resolveBodyCollision w a b).1)
    (hrbb : ∀ (w : PhysicsWorldState) (a b : PhysicsBody), P b → P (resolveBodyCollision w a b).2.1)
    (request : PhysicsSimulationRequest)
    (hall : ∀ b ∈ request.world.bodies, P b)
    (hspawn : ∀ b0, PhysicsAction.spawnBody b0 ∈ request.actions.getD [] → P b0) :
    ∀ b ∈ (runPhysicsSimulation request).world.bodies, P b := by
  have hloop : ∀ (dt : ℚ) (n : ℕ) (acts : List PhysicsAction) (w : PhysicsWorldState),
      (∀ b ∈ w.bodies, P b) → (∀ b0, PhysicsAction.spawnBody b0 ∈ acts → P b0) →
      ∀ b ∈ (simLoop dt acts n w).1.bodies, P b := by
    intro dt n
    induction n with
    | zero => intro acts w hw _ b hb; exact hw b hb
    | succ n ih =>
      intro acts w hw hacts b hb
      rw [simLoop] at hb
      exact ih [] _ (stepWorld_preserve P hupd hint hrw hrba hrbb w acts dt hw hacts)
        (by intro b0 h0; simp at h0) b hb
  intro b hb
  exact hloop _ _ _ _ (by rw [cloneWorld_eq]; exact hall) hspawn b hb

/-! ## C7: static bodies never move -/

/-- C7 (amended): a static body of the input world keeps its position and
velocity through `runPhysicsSimulation` — under gravity, damping, actions
targeting it, boundary penetration and collisions — provided every input
body carrying its id is that same body and no `spawnBody` action reuses
the id (a `removeBody` followed by `spawnBody` with the same id can
otherwise place a fresh body with that id anywhere). -/
theorem static_bodies_unchanged (request : PhysicsSimulationRequest) (s : PhysicsBody)
    (hs : s.isStatic = true)
    (hmem : s ∈ request.world.bodies)
    (hids : ∀ b ∈ request.world.bodies, b.id = s.id → b = s)
    (hnospawn : ∀ b0, PhysicsAction.spawnBody b0 ∈ request.actions.getD [] → b0.id ≠ s.id) :
    ∀ b ∈ (runPhysicsSimulation request).world.bodies, b.id = s.id →
      b.position = s.position ∧ b.velocity = s.velocity := by
  have key : ∀ b ∈ (runPhysicsSimulation request).world.bodies, b.id = s.id → b = s := by
    refine runPhysicsSimulation_preserve (fun b => b.id = s.id → b = s)
      ?_ ?_ ?_ ?_ ?_ request hids ?_
    · intro bodies bodyId target v hlook hdyn hall t ht hpt
      have htid : t.id = bodyId := by simpa using hpt
      rcases lookupBody_mem hlook with ⟨htarget, htargetid⟩
      constructor <;> intro hid
      all_goals {
        exfalso
        have h1 : target.id = s.id := by
          rw [htargetid, ← htid]
          exact hid
        have h2 : target = s := hall target htarget h1
        rw [h2] at hdyn
        simp [isDynamic, hs] at hdyn }
    · intro w dt b hP hid
      have hbid : b.id = s.id := by
        rw [← (integrateBody_id w dt b).1]
        exact hid
      rw [hP hbid]
      exact integrateBody_static w dt s hs
    · intro w b hP hid
      have hbid : b.id = s.id := by
        rw [← (resolveWorldCollision_id w b).1]
        exact hid
      rw [hP hbid, resolveWorldCollision_static w s hs]
    · intro w a b hP hid
      have hbid : a.id = s.id := by
        rw [← (resolveBodyCollision_fst_id w a b).1]
        exact hid
      rw [hP hbid]
      exact resolveBodyCollision_static_left w s b hs
    · intro w a b hP hid
      have hbid : b.id = s.id := by
        rw [← (resolveBodyCollision_snd_id w a b).1]
        exact hid
      rw [hP hbid]
      exact resolveBodyCollision_static_right w a s hs
    · intro b0 h0 hid
      exact absurd hid (hnospawn b0 h0)
  intro b hb hid
  rw [key b hb hid]
  exact ⟨rfl, rfl⟩

def cexStaticC7 : PhysicsBody :=
  { id := "s", position := ⟨10, 10⟩, velocity := ⟨0, 0⟩, halfSize := ⟨1, 1⟩,
    mass := 1, isStatic := true }

def cexSpawnC7 : PhysicsBody :=
  { id := "s", position := ⟨20, 20⟩, velocity := ⟨0, 0⟩, halfSize := ⟨1, 1⟩,
    mass := 1, isStatic := true }

def cexReqC7 : PhysicsSimulationRequest :=
  { world := { tick := 0, elapsedMs := 0, gravity := ⟨0, 0⟩,
               bounds := ⟨⟨0, 0⟩, ⟨100, 100⟩⟩, bodies := [cexStaticC7] }
    actions := some [.removeBody "s", .spawnBody cexSpawnC7]
    dtMs := some 20
    steps := some 1 }

/-- C7 counterexample: the input world's static body `"s"` sits at
`(10, 10)`, but after a `removeBody "s"` followed by `spawnBody` with the
same id the output world contains a body with id `"s"` at `(20, 20)`,
falsifying the claim as stated for arbitrary actions. -/
theorem static_bodies_unchanged_counterexample :
    cexStaticC7.isStatic = true ∧
    cexStaticC7 ∈ cexReqC7.world.bodies ∧
    (runPhysicsSimulation cexReqC7).world.bodies = [cexSpawnC7] ∧
    cexSpawnC7.id = cexStaticC7.id ∧
    cexSpawnC7.position ≠ cexStaticC7.position := by
  refine ⟨rfl, by simp [cexReqC7], ?_, rfl, by simp [cexSpawnC7, cexStaticC7]⟩
  have hsteps : (jsRound (clamp ((cexReqC7.steps.getD DEFAULT_STEPS)) DEFAULT_STEPS MAX_STEPS)).toNat = 1 := by
    norm_num [cexReqC7, jsRound, clamp, DEFAULT_STEPS, MAX_STEPS]
  have hpi : pairIndices 1 = [] := rfl
  have hrange : List.range 1 = [0] := rfl
  have hne : ¬(("s" : String) = "") := by simp
  simp only [runPhysicsSimulation, hsteps,
    show cexReqC7.actions = some [.removeBody "s", .spawnBody cexSpawnC7] from rfl,
    Option.getD_some, cloneWorld_eq, simLoop, stepWorld]
  norm_num [applyAction, lookupBody, cexReqC7, cexStaticC7, cexSpawnC7, cloneBody,
    integrateBodies, integrateBody, isDynamic, resolveWorldCollision_static,
    sortBodiesById, insertByBodyId, resolvePairs, hpi, restoreBodyOrder, hrange,
    List.enum, List.filter, List.find?, hne]
  simp [List.filterMap_cons]

def witStaticC7 : PhysicsBody :=
  { id := "s", position := ⟨5, 5⟩, velocity := ⟨0, 0⟩, halfSize := ⟨1, 1⟩,
    mass := 1, isStatic := true }

def witReqC7 : PhysicsSimulationRequest :=
  { world := { tick := 0, elapsedMs := 0, gravity := ⟨0, 12⟩,
               bounds := ⟨⟨0, 0⟩, ⟨100, 100⟩⟩, bodies := [witStaticC7] }
    actions := some []
    dtMs := some 20
    steps := some 1 }

lemma witReqC7_run :
    (runPhysicsSimulation witReqC7).world.bodies = [witStaticC7] := by
  have hsteps : (jsRound (clamp ((witReqC7.steps.getD DEFAULT_STEPS)) DEFAULT_STEPS MAX_STEPS)).toNat = 1 := by
    norm_num [witReqC7, jsRound, clamp, DEFAULT_STEPS, MAX_STEPS]
  have hpi : pairIndices 1 = [] := rfl
  have hrange : List.range 1 = [0] := rfl
  simp only [runPhysicsSimulation, hsteps,
    show witReqC7.actions = some [] from rfl,
    Option.getD_some, cloneWorld_eq, simLoop, stepWorld]
  norm_num [witReqC7, witStaticC7, integrateBodies, integrateBody, isDynamic,
    resolveWorldCollision_static, sortBodiesById, insertByBodyId, resolvePairs,
    hpi, restoreBodyOrder, hrange, List.enum]
  simp [List.filterMap_cons]

theorem static_bodies_unchanged_witness :
    witStaticC7.position = witStaticC7.position ∧
    witStaticC7.velocity = witStaticC7.velocity :=
  static_bodies_unchanged witReqC7 witStaticC7 rfl
    (by simp [witReqC7])
    (by intro b hb hid
        simp [witReqC7] at hb
        exact hb)
    (by intro b0 h0
        simp [witReqC7] at h0)
    witStaticC7 (by rw [witReqC7_run]; simp) rfl

/-! ## C10: normalized bodies always carry material parameters -/

/-- The three per-body material parameters are present. -/
def MaterialSome (b : PhysicsBody) : Prop :=
  b.restitution.isSome = true ∧ b.friction.isSome = true ∧ b.linearDamping.isSome = true

lemma normalizeBody_material {v : JsVal} {i : ℕ} {b : PhysicsBody}
    (h : normalizeBody v i = .ok b) : MaterialSome b := by
  rw [normalizeBody] at h
  simp only [bind, Bind.bind, Except.bind, throw, throwThe, MonadExceptOf.throw,
    pure, Except.pure] at h
  split at h
  · simp at h
  · split at h
    · simp at h
    · simp only [Except.ok.injEq] at h
      rw [← h]
      exact ⟨rfl, rfl, rfl⟩

lemma normalizeBodies_material :
    ∀ {l : List JsVal} {i : ℕ} {bodies : List PhysicsBody},
      normalizeBodies l i = .ok bodies → ∀ b ∈ bodies, MaterialSome b := by
  intro l
  induction l with
  | nil =>
    intro i bodies h b hb
    simp [normalizeBodies, pure, Except.pure] at h
    rw [h] at hb
    simp at hb
  | cons v rest ih =>
    intro i bodies h b hb
    rw [normalizeBodies] at h
    rcases h1 : normalizeBody v i with e | b1 <;> rw [h1] at h
    · simp [Bind.bind, Except.bind] at h
    · rcases h2 : normalizeBodies rest (i + 1) with e | bs <;> rw [h2] at h
      · simp [Bind.bind, Except.bind] at h
      · simp [Bind.bind, Except.bind, pure, Except.pure] at h
        rw [← h] at hb
        rcases List.mem_cons.1 hb with h3 | h3
        · rw [h3]; exact normalizeBody_material h1
        · exact ih h2 b h3

lemma normalizeAction_spawn_material {v : JsVal} {i : ℕ} {b : PhysicsBody}
    (h : normalizeAction v i = .ok (PhysicsAction.spawnBody b)) : MaterialSome b := by
  rw [normalizeAction] at h
  simp only [bind, Bind.bind, Except.bind, throw, throwThe, MonadExceptOf.throw,
    pure, Except.pure] at h
  split at h
  · simp at h
  · split at h
    · split at h
      · rcases hb0 : normalizeBody (getProp v "body") i with e | b0 <;> rw [hb0] at h
        · simp at h
        · simp only [Except.ok.injEq, PhysicsAction.spawnBody.injEq] at h
          rw [← h]
          exact normalizeBody_material hb0
      · split at h
        · split at h <;> simp at h
        · split at h
          · simp at h
          · split at h
            · simp at h
            · split at h
              · simp at h
              · split at h
                · simp at h
                · split at h <;> simp at h
    · simp at h

lemma normalizeActions_spawn_material :
    ∀ {l : List JsVal} {i : ℕ} {acts : List PhysicsAction},
      normalizeActions l i = .ok acts →
      ∀ b, PhysicsAction.spawnBody b ∈ acts → MaterialSome b := by
  intro l
  induction l with
  | nil =>
    intro i acts h b hb
    simp [normalizeActions, pure, Except.pure] at h
    rw [h] at hb
    simp at hb
  | cons v rest ih =>
    intro i acts h b hb
    rw [normalizeActions] at h
    rcases h1 : normalizeAction v i with e | a1 <;> rw [h1] at h
    · simp [Bind.bind, Except.bind] at h
    · rcases h2 : normalizeActions rest (i + 1) with e | as2 <;> rw [h2] at h
      · simp [Bind.bind, Except.bind] at h
      · simp [Bind.bind, Except.bind, pure, Except.pure] at h
        rw [← h] at hb
        rcases List.mem_cons.1 hb with h3 | h3
        · rw [← h3] at h1
          exact normalizeAction_spawn_material h1
        · exact ih h2 b h3

lemma normalizeWorld_material {v : JsVal} {w : PhysicsWorldState}
    (h : normalizeWorld v = .ok w) : ∀ b ∈ w.bodies, MaterialSome b := by
  rw [normalizeWorld] at h
  simp only [bind, Bind.bind, Except.bind, throw, throwThe, MonadExceptOf.throw,
    pure, Except.pure] at h
  split at h
  · simp at h
  · split at h
    · simp at h
    · rcases hnb : normalizeBodies (match getProp v "bodies" with
        | JsVal.arr elems => elems
        | x => []) 0 with e | bodies0 <;> rw [hnb] at h <;> dsimp only at h
      · simp at h
      · rcases hdup : findDuplicateId bodies0 [] with _ | dupId <;>
          rw [hdup] at h <;> dsimp only at h
        · split at h
          all_goals first
          | exact Except.noConfusion h
          | (split at h
             all_goals first
             | exact Except.noConfusion h
             | (simp only [Except.ok.injEq] at h
                intro b hb
                rw [← h] at hb
                exact normalizeBodies_material hnb b hb))
        · simp at h

lemma normalizeRequest_material {payload : JsVal} {req : PhysicsSimulationRequest}
    (h : normalizeRequest payload = .ok req) :
    (∀ b ∈ req.world.bodies, MaterialSome b) ∧
    (∀ b, PhysicsAction.spawnBody b ∈ req.actions.getD [] → MaterialSome b) := by
  rw [normalizeRequest] at h
  simp only [bind, Bind.bind, Except.bind, throw, throwThe, MonadExceptOf.throw,
    pure, Except.pure] at h
  split at h
  · simp at h
  · split at h
    · simp at h
    · rcases hw : normalizeWorld (getProp payload "world") with e | w0 <;> rw [hw] at h
      · simp at h
      · rcases ha : normalizeActions (match getProp payload "actions" with
          | JsVal.arr elems => elems
          | x => []) 0 with e | acts0 <;> rw [ha] at h
        · simp at h
        · simp only [Except.ok.injEq] at h
          constructor
          · intro b hb
            rw [← h] at hb
            exact normalizeWorld_material hw b hb
          · intro b hb
            rw [← h] at hb
            simp only [Option.getD_some] at hb
            exact normalizeActions_spawn_material ha b hb

/-- C10: every world returned by the untrusted entry point consists of
bodies whose restitution, friction and linearDamping are present, so the
per-body value (clamped) is what the stepper uses — the world-level
default fallback is never exercised on this path. -/
theorem tool_material_always_present (payload : JsVal) (res : PhysicsSimulationResult)
    (h : runGamePhysicsTool payload = .ok res) :
    ∀ b ∈ res.world.bodies,
      b.restitution.isSome = true ∧ b.friction.isSome = true ∧
      b.linearDamping.isSome = true ∧
      ∀ w : PhysicsWorldState,
        getBodyRestitution w b = clamp (b.restitution.getD 0) 0 1 ∧
        getBodyFriction w b = clamp (b.friction.getD 0) 0 1 ∧
        getBodyLinearDamping w b = clamp (b.linearDamping.getD 0) 0 1 := by
  rw [runGamePhysicsTool] at h
  rcases hreq : normalizeRequest payload with e | req <;> rw [hreq] at h
  · simp [Except.map] at h
  · simp only [Except.map, Except.ok.injEq] at h
    have hmat := normalizeRequest_material hreq
    have hall : ∀ b ∈ (runPhysicsSimulation req).world.bodies, MaterialSome b := by
      refine runPhysicsSimulation_preserve MaterialSome ?_ ?_ ?_ ?_ ?_ req hmat.1 hmat.2
      · intro bodies bodyId target v _ _ hall t ht _
        have hP := hall t ht
        exact ⟨hP, hP⟩
      · intro w dt b hb
        rcases integrateBody_id w dt b with ⟨_, _, h3, h4, h5⟩
        exact ⟨by rw [h3]; exact hb.1, by rw [h4]; exact hb.2.1, by rw [h5]; exact hb.2.2⟩
      · intro w b hb
        rcases resolveWorldCollision_id w b with ⟨_, _, h3, h4, h5⟩
        exact ⟨by rw [h3]; exact hb.1, by rw [h4]; exact hb.2.1, by rw [h5]; exact hb.2.2⟩
      · intro w a b hb
        rcases resolveBodyCollision_fst_id w a b with ⟨_, _, h3, h4, h5⟩
        exact ⟨by rw [h3]; exact hb.1, by rw [h4]; exact hb.2.1, by rw [h5]; exact hb.2.2⟩
      · intro w a b hb
        rcases resolveBodyCollision_snd_id w a b with ⟨_, _, h3, h4, h5⟩
        exact ⟨by rw [h3]; exact hb.1, by rw [h4]; exact hb.2.1, by rw [h5]; exact hb.2.2⟩
    intro b hb
    rw [← h] at hb
    rcases hall b hb with ⟨h1, h2, h3⟩
    rcases Option.isSome_iff_exists.1 h1 with ⟨r, hr⟩
    rcases Option.isSome_iff_exists.1 h2 with ⟨f, hf⟩
    rcases Option.isSome_iff_exists.1 h3 with ⟨d, hd⟩
    refine ⟨h1, h2, h3, fun w => ?_⟩
    rw [getBodyRestitution, getBodyFriction, getBodyLinearDamping, hr, hf, hd]
    simp [Option.getD_some]

def witPayloadC10 : JsVal :=
  .obj [("world", .obj [("bodies", .arr [.obj [("id", .str "p"), ("isStatic", .bool true)]])])]

def witBodyC10 : PhysicsBody :=
  { id := "p", position := ⟨0, 0⟩, velocity := ⟨0, 0⟩, halfSize := ⟨1 / 2, 1 / 2⟩,
    mass := 1, isStatic := true, restitution := some (1 / 4), friction := some (1 / 5),
    linearDamping := some (1 / 50) }

def witWorldC10 : PhysicsWorldState :=
  { tick := 0, elapsedMs := 0, gravity := ⟨0, 12⟩,
    bounds := ⟨⟨0, 0⟩, ⟨100, 100⟩⟩,
    defaultRestitution := some (1 / 4), defaultFriction := some (1 / 5),
    defaultLinearDamping := some (1 / 50), bodies := [witBodyC10] }

def witReqC10 : PhysicsSimulationRequest :=
  { world := witWorldC10, actions := some [], dtMs := some (16667 / 1000), steps := some 1 }

def witResC10 : PhysicsSimulationResult :=
  { world := { witWorldC10 with tick := 1, elapsedMs := 16667 / 1000 }, collisions := [] }

lemma witNormalizeC10 : normalizeRequest witPayloadC10 = .ok witReqC10 := by
  have htrim : jsTrim "p" = "p" := rfl
  have hj0 : ((jsRound 0 : ℤ) : ℚ) = 0 := by norm_num [jsRound]
  have hj1 : ((jsRound 1 : ℤ) : ℚ) = 1 := by norm_num [jsRound]
  have hp : ¬(("p" : String) = "") := by simp
  have habs : |(1 / 2 : ℚ)| ⊔ 1 / 10000 = 1 / 2 := by norm_num [abs]
  rw [normalizeRequest]
  simp [witPayloadC10, getProp, jsIsObject, MAX_ACTIONS, normalizeWorld,
    MAX_BODIES, normalizeBodies, normalizeBody, normalizeActions, readVector,
    toFiniteNumber, jsTruthy, findDuplicateId, hj0, hj1, witReqC10, witWorldC10,
    witBodyC10, htrim, hp, habs, bind, Bind.bind, Except.bind, pure, Except.pure]
  norm_num [abs_of_pos, max_eq_left]

lemma witRunC10 : runGamePhysicsTool witPayloadC10 = .ok witResC10 := by
  rw [runGamePhysicsTool, witNormalizeC10]
  have hsteps : (jsRound (clamp ((witReqC10.steps.getD DEFAULT_STEPS)) DEFAULT_STEPS MAX_STEPS)).toNat = 1 := by
    norm_num [witReqC10, jsRound, clamp, DEFAULT_STEPS, MAX_STEPS]
  have hpi : pairIndices 1 = [] := rfl
  have hrange : List.range 1 = [0] := rfl
  simp only [Except.map, runPhysicsSimulation, hsteps,
    show witReqC10.actions = some [] from rfl,
    Option.getD_some, cloneWorld_eq, simLoop, stepWorld]
  norm_num [witReqC10, witWorldC10, witResC10, witBodyC10, integrateBodies,
    integrateBody, isDynamic, resolveWorldCollision_static, sortBodiesById,
    insertByBodyId, resolvePairs, hpi, restoreBodyOrder, hrange, List.enum,
    clamp, MIN_DT_MS, MAX_DT_MS]
  simp [List.filterMap_cons]

theorem tool_material_always_present_witness :
    witBodyC10.restitution.isSome = true ∧ witBodyC10.friction.isSome = true ∧
    witBodyC10.linearDamping.isSome = true ∧
    (getBodyRestitution witResC10.world witBodyC10 =
        clamp (witBodyC10.restitution.getD 0) 0 1 ∧
      getBodyFriction witResC10.world witBodyC10 =
        clamp (witBodyC10.friction.getD 0) 0 1 ∧
      getBodyLinearDamping witResC10.world witBodyC10 =
        clamp (witBodyC10.linearDamping.getD 0) 0 1) :=
  have h := tool_material_always_present witPayloadC10 witResC10 witRunC10
  have h2 := h witBodyC10 (by simp [witResC10, witWorldC10])
  ⟨h2.1, h2.2.1, h2.2.2.1, h2.2.2.2 witResC10.world⟩

/-! ## C8: validation error messages and their precedence -/

/-- C8 (amended): the exact error messages hold when each condition is
the first failing check in the order the code tests them: payload object,
actions limit, world object, bodies limit, per-body validity, duplicate
ids.  A failure returns `Except.error` and hence no world at all. -/
theorem runGamePhysicsTool_error_messages (payload : JsVal)
    (hobj : jsIsObject payload = true) :
    ((match getProp payload "actions" with
        | JsVal.arr elems => elems
        | _ => []).length > MAX_ACTIONS →
      runGamePhysicsTool payload = .error "actions exceeds limit of 100.") ∧
    ((match getProp payload "actions" with
        | JsVal.arr elems => elems
        | _ => []).length ≤ MAX_ACTIONS →
      jsIsObject (getProp payload "world") = false →
      runGamePhysicsTool payload = .error "world must be an object.") ∧
    ((match getProp payload "actions" with
        | JsVal.arr elems => elems
        | _ => []).length ≤ MAX_ACTIONS →
      jsIsObject (getProp payload "world") = true →
      (match getProp (getProp payload "world") "bodies" with
        | JsVal.arr elems => elems
        | _ => []).length > MAX_BODIES →
      runGamePhysicsTool payload = .error "world.bodies exceeds limit of 300.") ∧
    (∀ (bodies0 : List PhysicsBody) (dupId : String),
      (match getProp payload "actions" with
        | JsVal.arr elems => elems
        | _ => []).length ≤ MAX_ACTIONS →
      jsIsObject (getProp payload "world") = true →
      (match getProp (getProp payload "world") "bodies" with
        | JsVal.arr elems => elems
        | _ => []).length ≤ MAX_BODIES →
      normalizeBodies (match getProp (getProp payload "world") "bodies" with
        | JsVal.arr elems => elems
        | _ => []) 0 = .ok bodies0 →
      findDuplicateId bodies0 [] = some dupId →
      runGamePhysicsTool payload =
        .error s!"Duplicate body id \"{dupId}\" in world.bodies.") := by
  refine ⟨?_, ?_, ?_, ?_⟩
  · intro hlen
    rw [runGamePhysicsTool, normalizeRequest]
    simp only [bind, Bind.bind, Except.bind, throw, throwThe, MonadExceptOf.throw,
      pure, Except.pure, hobj, Bool.not_true, if_false, Bool.false_eq_true, reduceIte]
    rw [if_pos hlen]
    rfl
  · intro hlen hw
    rw [runGamePhysicsTool, normalizeRequest, normalizeWorld]
    simp only [bind, Bind.bind, Except.bind, throw, throwThe, MonadExceptOf.throw,
      pure, Except.pure, hobj, hw, Bool.not_true, Bool.not_false, if_false, if_true,
      Bool.false_eq_true, reduceIte]
    rw [if_neg (not_lt.2 hlen)]
    rfl
  · intro hlen hw hblen
    rw [runGamePhysicsTool, normalizeRequest, normalizeWorld]
    simp only [bind, Bind.bind, Except.bind, throw, throwThe, MonadExceptOf.throw,
      pure, Except.pure, hobj, hw, Bool.not_true, Bool.not_false, if_false, if_true,
      Bool.false_eq_true, reduceIte]
    rw [if_neg (not_lt.2 hlen), if_pos hblen]
    rfl
  · intro bodies0 dupId hlen hw hblen hnb hdup
    rw [runGamePhysicsTool, normalizeRequest, normalizeWorld]
    simp only [bind, Bind.bind, Except.bind, throw, throwThe, MonadExceptOf.throw,
      pure, Except.pure, hobj, hw, Bool.not_true, Bool.not_false, if_false, if_true,
      Bool.false_eq_true, reduceIte]
    rw [if_neg (not_lt.2 hlen), if_neg (not_lt.2 hblen), hnb]
    simp only [Except.bind]
    rw [hdup]
    rfl

def cexBodyJsonC8 : JsVal :=
  .obj [("id", .str "x"), ("position", .obj [("x", .num 1), ("y", .num 1)]),
        ("halfSize", .obj [("x", .num 1), ("y", .num 1)]), ("mass", .num 1)]

/-- A payload violating both the actions limit (101 actions) and the
bodies limit (301 bodies). -/
def cexPayloadC8 : JsVal :=
  .obj [("world", .obj [("bodies", .arr (List.replicate 301 cexBodyJsonC8))]),
        ("actions", .arr (List.replicate 101
          (.obj [("type", .str "removeBody"), ("bodyId", .str "x")])))]

set_option maxRecDepth 4000 in
/-- C8 counterexample: this payload's `world.bodies` has 301 elements,
yet the call fails with the *actions* message — the claim's universal
reading ("every payload whose world.bodies exceeds 300 fails with the
bodies message") is false because the actions limit is checked first. -/
theorem runGamePhysicsTool_error_messages_counterexample :
    (match getProp (getProp cexPayloadC8 "world") "bodies" with
      | JsVal.arr elems => elems
      | _ => []).length = 301 ∧
    runGamePhysicsTool cexPayloadC8 = .error "actions exceeds limit of 100." ∧
    ("actions exceeds limit of 100." : String) ≠ "world.bodies exceeds limit of 300." := by
  refine ⟨by simp [cexPayloadC8, getProp], ?_, by simp⟩
  rw [runGamePhysicsTool, normalizeRequest]
  simp only [bind, Bind.bind, Except.bind, throw, throwThe, MonadExceptOf.throw,
    pure, Except.pure]
  rw [if_neg (by simp [cexPayloadC8, jsIsObject]),
    if_pos (by simp [cexPayloadC8, getProp, MAX_ACTIONS])]
  rfl

set_option maxRecDepth 4000 in
theorem runGamePhysicsTool_error_messages_witness :
    runGamePhysicsTool cexPayloadC8 = .error "actions exceeds limit of 100." :=
  (runGamePhysicsTool_error_messages cexPayloadC8 rfl).1
    (by simp [cexPayloadC8, getProp, MAX_ACTIONS])

/-! ## C3: heap model of the engine for the non-mutation guarantee

The pure embedding above cannot express JavaScript's in-place mutation,
so the clone/step pipeline is repeated here over an explicit heap: a list
of cells addressed by position.  `Vector2` objects, body objects and the
world object (with its `bodies` array inlined) are mutable cells; every
field holding an object in the source holds an address here.  The
numeric work of each mutation is delegated to the corresponding pure
function and its accumulated effect is written back through the same
references the source mutates, so the write discipline — which cells
each phase of `stepWorld` writes — mirrors the source.  Actions arrive
as pure data (`spawnBody` clones its body into fresh cells, exactly as
`cloneBody(action.body)` does). -/

namespace HeapModel

/-- A body object: `position`, `velocity`, `halfSize` are addresses of
vector cells. -/
structure HBody where
  id : String
  position : ℕ
  velocity : ℕ
  halfSize : ℕ
  mass : ℚ
  isStatic : Bool
  restitution : Option ℚ
  friction : Option ℚ
  linearDamping : Option ℚ
  tag : Option String
deriving DecidableEq, Repr

/-- The world object: `gravity`, `bounds.min`, `bounds.max` are vector
cell addresses, `bodies` is the (inlined) array of body cell addresses. -/
structure HWorld where
  tick : ℚ
  elapsedMs : ℚ
  gravity : ℕ
  boundsMin : ℕ
  boundsMax : ℕ
  defaultRestitution : Option ℚ
  defaultFriction : Option ℚ
  defaultLinearDamping : Option ℚ
  bodies : List ℕ
deriving DecidableEq, Repr

inductive Cell where
  | vec (v : Vector2)
  | body (b : HBody)
  | world (w : HWorld)
deriving DecidableEq, Repr

/-- The addresses stored inside a cell. -/
def cellAddrs : Cell → List ℕ
  | .vec _ => []
  | .body b => [b.position, b.velocity, b.halfSize]
  | .world w => w.gravity :: w.boundsMin :: w.boundsMax :: w.bodies

abbrev Heap := List Cell

def readCell (h : Heap) (a : ℕ) : Option Cell := h.get? a

def allocCell (h : Heap) (c : Cell) : Heap × ℕ := (h ++ [c], h.length)

def readVec (h : Heap) (a : ℕ) : Vector2 :=
  match readCell h a with
  | some (.vec v) => v
  | _ => ⟨0, 0⟩

def readBody (h : Heap) (a : ℕ) : Option HBody :=
  match readCell h a with
  | some (.body b) => some b
  | _ => none

def readWorld (h : Heap) (a : ℕ) : Option HWorld :=
  match readCell h a with
  | some (.world w) => some w
  | _ => none

/-- Write a vector cell in place (no-op on a non-vector cell, which a
run starting from a source-shaped heap never attempts). -/
def writeVec (h : Heap) (a : ℕ) (v : Vector2) : Heap :=
  match readCell h a with
  | some (.vec _) => h.set a (.vec v)
  | _ => h

def writeBody (h : Heap) (a : ℕ) (b : HBody) : Heap :=
  match readCell h a with
  | some (.body _) => h.set a (.body b)
  | _ => h

def writeWorld (h : Heap) (a : ℕ) (w : HWorld) : Heap :=
  match readCell h a with
  | some (.world _) => h.set a (.world w)
  | _ => h

def defaultHBody : HBody :=
  { id := "", position := 0, velocity := 0, halfSize := 0, mass := 0,
    isStatic := true, restitution := none, friction := none,
    linearDamping := none, tag := none }

def defaultHWorld : HWorld :=
  { tick := 0, elapsedMs := 0, gravity := 0, boundsMin := 0, boundsMax := 0,
    defaultRestitution := none, defaultFriction := none,
    defaultLinearDamping := none, bodies := [] }

/-- Assemble the pure value of the body stored at `a`. -/
def readBodyValue (h : Heap) (a : ℕ) : PhysicsBody :=
  let hb := (readBody h a).getD defaultHBody
  { id := hb.id
    position := readVec h hb.position
    velocity := readVec h hb.velocity
    halfSize := readVec h hb.halfSize
    mass := hb.mass
    isStatic := hb.isStatic
    restitution := hb.restitution
    friction := hb.friction
    linearDamping := hb.linearDamping
    tag := hb.tag }

/-- Assemble the world parameters (bounds, defaults) the per-body pure
functions read; the bodies list is irrelevant to them. -/
def hViewWorld (h : Heap) (a : ℕ) : PhysicsWorldState :=
  let hw := (readWorld h a).getD defaultHWorld
  { tick := hw.tick
    elapsedMs := hw.elapsedMs
    gravity := readVec h hw.gravity
    bounds := { min := readVec h hw.boundsMin, max := readVec h hw.boundsMax }
    defaultRestitution := hw.defaultRestitution
    defaultFriction := hw.defaultFriction
    defaultLinearDamping := hw.defaultLinearDamping
    bodies := [] }

/-- `cloneBody` on the heap: fresh vector cells, fresh body cell. -/
def hCloneBody (h : Heap) (srcAddr : ℕ) : Heap × ℕ :=
  let hb := (readBody h srcAddr).getD defaultHBody
  let p := allocCell h (.vec (readVec h hb.position))
  let v := allocCell p.1 (.vec (readVec h hb.velocity))
  let s := allocCell v.1 (.vec (readVec h hb.halfSize))
  allocCell s.1 (.body { hb with position := p.2, velocity := v.2, halfSize := s.2 })

/-- `cloneBody(action.body)` for a pure spawn payload: fresh cells from
the pure value. -/
def hCloneBodyFromValue (h : Heap) (b : PhysicsBody) : Heap × ℕ :=
  let p := allocCell h (.vec b.position)
  let v := allocCell p.1 (.vec b.velocity)
  let s := allocCell v.1 (.vec b.halfSize)
  allocCell s.1 (.body
    { id := b.id, position := p.2, velocity := v.2, halfSize := s.2,
      mass := b.mass, isStatic := b.isStatic, restitution := b.restitution,
      friction := b.friction, linearDamping := b.linearDamping, tag := b.tag })

def hCloneBodies (h : Heap) (addrs : List ℕ) : Heap × List ℕ :=
  match addrs with
  | [] => (h, [])
  | a :: rest =>
    let r := hCloneBody h a
    let rs := hCloneBodies r.1 rest
    (rs.1, r.2 :: rs.2)

/-- `cloneWorld` on the heap: fresh gravity/bounds vectors, fresh clones
of every body, fresh world cell. -/
def hCloneWorld (h : Heap) (srcAddr : ℕ) : Heap × ℕ :=
  let hw := (readWorld h srcAddr).getD defaultHWorld
  let g := allocCell h (.vec (readVec h hw.gravity))
  let mn := allocCell g.1 (.vec (readVec h hw.boundsMin))
  let mx := allocCell mn.1 (.vec (readVec h hw.boundsMax))
  let bs := hCloneBodies mx.1 hw.bodies
  allocCell bs.1 (.world
    { hw with gravity := g.2, boundsMin := mn.2, boundsMax := mx.2, bodies := bs.2 })

def readBodyId (h : Heap) (a : ℕ) : String :=
  ((readBody h a).getD defaultHBody).id

/-- The `bodyById` map: association list of (id, body address); a later
entry overrides an earlier one, as in `new Map(...)`. -/
def mapLookup (m : List (String × ℕ)) (k : String) : Option ℕ :=
  ((m.filter (fun e => e.1 == k)).getLast?).map (fun e => e.2)

/-- `applyAction` on the heap.  Velocity/position mutations of the
looked-up dynamic target write through the addresses stored in its body
cell; `setVelocity`/`teleport` allocate a fresh vector (`{ ...v }`) and
repoint the body's field; `spawnBody` clones into fresh cells and, when
accepted, appends the new address to the world's bodies array and the
map; `removeBody` filters both. -/
def hApplyAction (h : Heap) (worldAddr : ℕ) (m : List (String × ℕ))
    (action : PhysicsAction) (dtSeconds : ℚ) : Heap × List (String × ℕ) :=
  match action with
  | .spawnBody body =>
    let r := hCloneBodyFromValue h body
    let h := r.1
    let incoming := r.2
    if readBodyId h incoming = "" ∨ (mapLookup m (readBodyId h incoming)).isSome then
      (h, m)
    else
      let hw := (readWorld h worldAddr).getD defaultHWorld
      (writeWorld h worldAddr { hw with bodies := hw.bodies ++ [incoming] },
       m ++ [(readBodyId h incoming, incoming)])
  | .removeBody bodyId =>
    match mapLookup m bodyId with
    | none => (h, m)
    | some _ =>
      let hw := (readWorld h worldAddr).getD defaultHWorld
      (writeWorld h worldAddr
        { hw with bodies := hw.bodies.filter (fun a => !(readBodyId h a == bodyId)) },
       m.filter (fun e => !(e.1 == bodyId)))
  | .applyImpulse bodyId impulse =>
    match mapLookup m bodyId with
    | none => (h, m)
    | some addr =>
      match readBody h addr with
      | none => (h, m)
      | some target =>
        if !(isDynamic (readBodyValue h addr)) then (h, m)
        else
          let inverseMass := bodyInverseMass (readBodyValue h addr)
          let v := readVec h target.velocity
          (writeVec h target.velocity
            ⟨v.x + impulse.x * inverseMass, v.y + impulse.y * inverseMass⟩, m)
  | .applyForce bodyId force =>
    match mapLookup m bodyId with
    | none => (h, m)
    | some addr =>
      match readBody h addr with
      | none => (h, m)
      | some target =>
        if !(isDynamic (readBodyValue h addr)) then (h, m)
        else
          let inverseMass := bodyInverseMass (readBodyValue h addr)
          let v := readVec h target.velocity
          (writeVec h target.velocity
            ⟨v.x + force.x * inverseMass * dtSeconds,
             v.y + force.y * inverseMass * dtSeconds⟩, m)
  | .setVelocity bodyId velocity =>
    match mapLookup m bodyId with
    | none => (h, m)
    | some addr =>
      match readBody h addr with
      | none => (h, m)
      | some target =>
        if !(isDynamic (readBodyValue h addr)) then (h, m)
        else
          let nv := allocCell h (.vec velocity)
          (writeBody nv.1 addr { target with velocity := nv.2 }, m)
  | .teleport bodyId position =>
    match mapLookup m bodyId with
    | none => (h, m)
    | some addr =>
      match readBody h addr with
      | none => (h, m)
      | some target =>
        if !(isDynamic (readBodyValue h addr)) then (h, m)
        else
          let np := allocCell h (.vec position)
          (writeBody np.1 addr { target with position := np.2 }, m)

/-- One body's integration step: the accumulated effect of the in-place
`velocity`/`position` mutations is written back through the body's
vector cells. -/
def hIntegrateBody (h : Heap) (worldAddr : ℕ) (dtSeconds : ℚ) (a : ℕ) : Heap :=
  match readBody h a with
  | none => h
  | some hb =>
    let b2 := integrateBody (hViewWorld h worldAddr) dtSeconds (readBodyValue h a)
    writeVec (writeVec h hb.velocity b2.velocity) hb.position b2.position

def hIntegrateBodies (h : Heap) (worldAddr : ℕ) (dtSeconds : ℚ) : Heap :=
  (((readWorld h worldAddr).getD defaultHWorld).bodies).foldl
    (fun h a => hIntegrateBody h worldAddr dtSeconds a) h

/-- Boundary resolution for one body, writing through its cells. -/
def hResolveWorldCollision (h : Heap) (worldAddr : ℕ) (a : ℕ) :
    Heap × List CollisionEvent :=
  match readBody h a with
  | none => (h, [])
  | some hb =>
    let r := resolveWorldCollision (hViewWorld h worldAddr) (readBodyValue h a)
    (writeVec (writeVec h hb.position r.1.position) hb.velocity r.1.velocity, r.2)

def hResolveBoundaries (h : Heap) (worldAddr : ℕ) : Heap × List CollisionEvent :=
  (((readWorld h worldAddr).getD defaultHWorld).bodies).foldl
    (fun acc a =>
      let r := hResolveWorldCollision acc.1 worldAddr a
      (r.1, acc.2 ++ r.2))
    (h, [])

/-- Pair resolution for two body addresses. -/
def hResolveBodyCollision (h : Heap) (worldAddr : ℕ) (aA aB : ℕ) :
    Heap × List CollisionEvent :=
  match readBody h aA, readBody h aB with
  | some hbA, some hbB =>
    let r := resolveBodyCollision (hViewWorld h worldAddr)
      (readBodyValue h aA) (readBodyValue h aB)
    let h := writeVec (writeVec h hbA.position r.1.position) hbA.velocity r.1.velocity
    let h := writeVec (writeVec h hbB.position r.2.1.position) hbB.velocity r.2.1.velocity
    (h, r.2.2)
  | _, _ => (h, [])

/-- Stable insertion by stored body id (`[...bodies].sort` on addresses:
the sorted array shares its element references with `world.bodies`). -/
def insertAddrById (h : Heap) (x : ℕ) : List ℕ → List ℕ
  | [] => [x]
  | y :: ys =>
    if readBodyId h x < readBodyId h y then x :: y :: ys
    else y :: insertAddrById h x ys

def sortAddrsById (h : Heap) (addrs : List ℕ) : List ℕ :=
  addrs.foldl (fun acc x => insertAddrById h x acc) []

def hResolvePairs (h : Heap) (worldAddr : ℕ) (ordered : List ℕ) :
    Heap × List CollisionEvent :=
  (pairIndices ordered.length).foldl
    (fun acc ij =>
      match ordered.get? ij.1, ordered.get? ij.2 with
      | some aA, some aB =>
        if !(isDynamic (readBodyValue acc.1 aA)) &&
            !(isDynamic (readBodyValue acc.1 aB)) then acc
        else
          let r := hResolveBodyCollision acc.1 worldAddr aA aB
          (r.1, acc.2 ++ r.2)
      | _, _ => acc)
    (h, [])

/-- `stepWorld` on the heap. -/
def hStepWorld (h : Heap) (srcWorldAddr : ℕ) (actions : List PhysicsAction)
    (dtMs : ℚ) : Heap × ℕ × List CollisionEvent :=
  let c := hCloneWorld h srcWorldAddr
  let h := c.1
  let worldAddr := c.2
  let dtSeconds := dtMs / 1000
  let m := (((readWorld h worldAddr).getD defaultHWorld).bodies).map
    (fun a => (readBodyId h a, a))
  let hm := actions.foldl
    (fun acc action => hApplyAction acc.1 worldAddr acc.2 action dtSeconds) (h, m)
  let h := hIntegrateBodies hm.1 worldAddr dtSeconds
  let rb := hResolveBoundaries h worldAddr
  let h := rb.1
  let ordered := sortAddrsById h (((readWorld h worldAddr).getD defaultHWorld).bodies)
  let rp := hResolvePairs h worldAddr ordered
  let h := rp.1
  let hw := (readWorld h worldAddr).getD defaultHWorld
  let h := writeWorld h worldAddr
    { hw with tick := hw.tick + 1, elapsedMs := hw.elapsedMs + dtMs }
  (h, worldAddr, rb.2 ++ rp.2)

def hSimLoop (dtMs : ℚ) (actions : List PhysicsAction) :
    ℕ → Heap → ℕ → Heap × ℕ × List CollisionEvent
  | 0, h, worldAddr => (h, worldAddr, [])
  | n + 1, h, worldAddr =>
    let r := hStepWorld h worldAddr actions dtMs
    let rest := hSimLoop dtMs [] n r.1 r.2.1
    (rest.1, rest.2.1, r.2.2 ++ rest.2.2)

/-- `runPhysicsSimulation` on the heap: the caller's world lives at
`worldAddr` in `h`; the request's scalar fields arrive as options. -/
def hRunPhysicsSimulation (h : Heap) (worldAddr : ℕ)
    (actions : Option (List PhysicsAction)) (dtMs? steps? : Option ℚ) :
    Heap × ℕ × List CollisionEvent :=
  let dtMs := clamp (dtMs?.getD DEFAULT_DT_MS) MIN_DT_MS MAX_DT_MS
  let steps := jsRound (clamp (steps?.getD DEFAULT_STEPS) DEFAULT_STEPS MAX_STEPS)
  let c := hCloneWorld h worldAddr
  hSimLoop dtMs (actions.getD []) steps.toNat c.1 c.2

/-! ### Heap invariants: the run never writes below the initial length -/

/-- Every cell at an address `≥ n` stores only addresses `≥ n`. -/
def closedFrom (n : ℕ) (h : Heap) : Prop :=
  ∀ a, n ≤ a → ∀ c, h.get? a = some c → ∀ x ∈ cellAddrs c, n ≤ x

/-- Relation between the heap before and after an operation that only
allocates fresh cells and writes at addresses `≥ n`. -/
def Step (n : ℕ) (h h' : Heap) : Prop :=
  n ≤ h'.length ∧ (∀ a, a < n → h'.get? a = h.get? a) ∧ closedFrom n h'

lemma Step.trans {n : ℕ} {h h' h'' : Heap} (s1 : Step n h h') (s2 : Step n h' h'') :
    Step n h h'' :=
  ⟨s2.1, fun a ha => (s2.2.1 a ha).trans (s1.2.1 a ha), s2.2.2⟩

lemma Step.same {n : ℕ} {h : Heap} (hn : n ≤ h.length) (hc : closedFrom n h) :
    Step n h h :=
  ⟨hn, fun _ _ => rfl, hc⟩

lemma allocCell_step {n : ℕ} {h : Heap} {c : Cell}
    (hn : n ≤ h.length) (hc : closedFrom n h)
    (hca : ∀ x ∈ cellAddrs c, n ≤ x) :
    Step n h (allocCell h c).1 ∧ n ≤ (allocCell h c).2 := by
  refine ⟨⟨?_, ?_, ?_⟩, hn⟩
  · simp [allocCell]; omega
  · intro a ha
    exact List.get?_append (by omega)
  · intro a ha c2 hget x hx
    simp only [allocCell] at hget
    rcases lt_trichotomy a h.length with hlt | heq | hgt
    · rw [List.get?_append hlt] at hget
      exact hc a ha c2 hget x hx
    · rw [heq, List.get?_concat_length] at hget
      have hcc : c = c2 := Option.some_inj.1 hget
      rw [← hcc] at hx
      exact hca x hx
    · rw [List.get?_eq_none.2 (by simp; omega)] at hget
      exact absurd hget (by simp)

lemma set_step {n : ℕ} {h : Heap} {a : ℕ} {c : Cell}
    (hn : n ≤ h.length) (hc : closedFrom n h) (ha : n ≤ a)
    (hca : ∀ x ∈ cellAddrs c, n ≤ x) :
    Step n h (h.set a c) := by
  refine ⟨by simp [hn], ?_, ?_⟩
  · intro b hb
    rw [List.get?_eq_getElem?, List.get?_eq_getElem?,
      List.getElem?_set_ne (by omega)]
  · intro b hb c2 hget x hx
    by_cases hba : a = b
    · subst hba
      rw [List.get?_eq_getElem?] at hget
      by_cases hlen : a < h.length
      · rw [List.getElem?_set_self hlen] at hget
        have hcc : c = c2 := Option.some_inj.1 hget
        rw [← hcc] at hx
        exact hca x hx
      · rw [List.getElem?_eq_none (by simp; omega)] at hget
        exact absurd hget (by simp)
    · rw [List.get?_eq_getElem?, List.getElem?_set_ne hba,
        ← List.get?_eq_getElem?] at hget
      exact hc b hb c2 hget x hx

lemma writeVec_step {n : ℕ} {h : Heap} {a : ℕ} {v : Vector2}
    (hn : n ≤ h.length) (hc : closedFrom n h) (ha : n ≤ a) :
    Step n h (writeVec h a v) := by
  rw [writeVec]
  split
  · exact set_step hn hc ha (by simp [cellAddrs])
  · exact Step.same hn hc

lemma writeBody_step {n : ℕ} {h : Heap} {a : ℕ} {b : HBody}
    (hn : n ≤ h.length) (hc : closedFrom n h) (ha : n ≤ a)
    (hb : n ≤ b.position ∧ n ≤ b.velocity ∧ n ≤ b.halfSize) :
    Step n h (writeBody h a b) := by
  rw [writeBody]
  split
  · refine set_step hn hc ha ?_
    intro x hx
    simp [cellAddrs] at hx
    rcases hx with hx | hx | hx <;> rw [hx]
    exacts [hb.1, hb.2.1, hb.2.2]
  · exact Step.same hn hc

lemma writeWorld_step {n : ℕ} {h : Heap} {a : ℕ} {w : HWorld}
    (hn : n ≤ h.length) (hc : closedFrom n h) (ha : n ≤ a)
    (hw : n ≤ w.gravity ∧ n ≤ w.boundsMin ∧ n ≤ w.boundsMax ∧ ∀ x ∈ w.bodies, n ≤ x) :
    Step n h (writeWorld h a w) := by
  rw [writeWorld]
  split
  · refine set_step hn hc ha ?_
    intro x hx
    simp [cellAddrs] at hx
    rcases hx with hx | hx | hx | hx
    · rw [hx]; exact hw.1
    · rw [hx]; exact hw.2.1
    · rw [hx]; exact hw.2.2.1
    · exact hw.2.2.2 x hx
  · exact Step.same hn hc

lemma readBody_addrs {n : ℕ} {h : Heap} {a : ℕ} {b : HBody}
    (hc : closedFrom n h) (ha : n ≤ a) (hr : readBody h a = some b) :
    n ≤ b.position ∧ n ≤ b.velocity ∧ n ≤ b.halfSize := by
  rw [readBody] at hr
  split at hr
  · next c hcell =>
    rename_i b0
    have := hc a ha _ hcell
    simp [cellAddrs] at this
    have hbb := Option.some_inj.1 hr
    rw [← hbb]
    exact ⟨this.1, this.2.1, this.2.2⟩
  · exact absurd hr (by simp)

lemma readWorld_addrs {n : ℕ} {h : Heap} {a : ℕ} {w : HWorld}
    (hc : closedFrom n h) (ha : n ≤ a) (hr : readWorld h a = some w) :
    n ≤ w.gravity ∧ n ≤ w.boundsMin ∧ n ≤ w.boundsMax ∧ ∀ x ∈ w.bodies, n ≤ x := by
  rw [readWorld] at hr
  split at hr
  · next c hcell =>
    have := hc a ha _ hcell
    simp [cellAddrs] at this
    have hww := Option.some_inj.1 hr
    rw [← hww]
    exact ⟨this.1, this.2.1, this.2.2.1, this.2.2.2⟩
  · exact absurd hr (by simp)

lemma hCloneBodyFromValue_step {n : ℕ} {h : Heap} {b : PhysicsBody}
    (hn : n ≤ h.length) (hc : closedFrom n h) :
    Step n h (hCloneBodyFromValue h b).1 ∧ n ≤ (hCloneBodyFromValue h b).2 := by
  rw [hCloneBodyFromValue]
  have s1 := allocCell_step (c := Cell.vec b.position) hn hc (by simp [cellAddrs])
  have s2 := allocCell_step (c := Cell.vec b.velocity) s1.1.1 s1.1.2.2 (by simp [cellAddrs])
  have s3 := allocCell_step (c := Cell.vec b.halfSize) s2.1.1 s2.1.2.2 (by simp [cellAddrs])
  have s4 := allocCell_step s3.1.1 s3.1.2.2
    (c := Cell.body ⟨b.id, (allocCell h (Cell.vec b.position)).2,
      (allocCell (allocCell h (Cell.vec b.position)).1 (Cell.vec b.velocity)).2,
      (allocCell (allocCell (allocCell h (Cell.vec b.position)).1
        (Cell.vec b.velocity)).1 (Cell.vec b.halfSize)).2,
      b.mass, b.isStatic, b.restitution, b.friction, b.linearDamping, b.tag⟩)
    (by
      intro x hx
      simp [cellAddrs] at hx
      rcases hx with hx | hx | hx <;> rw [hx]
      exacts [s1.2, s2.2, s3.2])
  exact ⟨((s1.1.trans s2.1).trans s3.1).trans s4.1, s4.2⟩

lemma hCloneBody_step {n : ℕ} {h : Heap} {srcAddr : ℕ}
    (hn : n ≤ h.length) (hc : closedFrom n h) :
    Step n h (hCloneBody h srcAddr).1 ∧ n ≤ (hCloneBody h srcAddr).2 := by
  rw [hCloneBody]
  set hb := (readBody h srcAddr).getD defaultHBody with hhb
  have s1 := allocCell_step (c := Cell.vec (readVec h hb.position)) hn hc
    (by simp [cellAddrs])
  have s2 := allocCell_step s1.1.1 s1.1.2.2
    (c := Cell.vec (readVec h hb.velocity)) (by simp [cellAddrs])
  have s3 := allocCell_step s2.1.1 s2.1.2.2
    (c := Cell.vec (readVec h hb.halfSize)) (by simp [cellAddrs])
  have s4 := allocCell_step s3.1.1 s3.1.2.2
    (c := Cell.body ⟨hb.id, (allocCell h (Cell.vec (readVec h hb.position))).2,
      (allocCell (allocCell h (Cell.vec (readVec h hb.position))).1
        (Cell.vec (readVec h hb.velocity))).2,
      (allocCell (allocCell (allocCell h (Cell.vec (readVec h hb.position))).1
        (Cell.vec (readVec h hb.velocity))).1 (Cell.vec (readVec h hb.halfSize))).2,
      hb.mass, hb.isStatic, hb.restitution, hb.friction, hb.linearDamping, hb.tag⟩)
    (by
      intro x hx
      simp [cellAddrs] at hx
      rcases hx with hx | hx | hx <;> rw [hx]
      exacts [s1.2, s2.2, s3.2])
  exact ⟨((s1.1.trans s2.1).trans s3.1).trans s4.1, s4.2⟩

lemma hCloneBodies_step {n : ℕ} :
    ∀ (addrs : List ℕ) (h : Heap), n ≤ h.length → closedFrom n h →
      Step n h (hCloneBodies h addrs).1 ∧ ∀ x ∈ (hCloneBodies h addrs).2, n ≤ x := by
  intro addrs
  induction addrs with
  | nil =>
    intro h hn hc
    exact ⟨Step.same hn hc, by simp [hCloneBodies]⟩
  | cons a rest ih =>
    intro h hn hc
    rw [hCloneBodies]
    have s1 := @hCloneBody_step _ _ a hn hc
    have s2 := ih (hCloneBody h a).1 s1.1.1 s1.1.2.2
    refine ⟨s1.1.trans s2.1, ?_⟩
    intro x hx
    rcases List.mem_cons.1 hx with hx | hx
    · rw [hx]; exact s1.2
    · exact s2.2 x hx

lemma hCloneWorld_step {n : ℕ} {h : Heap} {srcAddr : ℕ}
    (hn : n ≤ h.length) (hc : closedFrom n h) :
    Step n h (hCloneWorld h srcAddr).1 ∧ n ≤ (hCloneWorld h srcAddr).2 := by
  rw [hCloneWorld]
  set hw := (readWorld h srcAddr).getD defaultHWorld with hhw
  have s1 := allocCell_step (c := Cell.vec (readVec h hw.gravity)) hn hc
    (by simp [cellAddrs])
  have s2 := allocCell_step s1.1.1 s1.1.2.2
    (c := Cell.vec (readVec h hw.boundsMin)) (by simp [cellAddrs])
  have s3 := allocCell_step s2.1.1 s2.1.2.2
    (c := Cell.vec (readVec h hw.boundsMax)) (by simp [cellAddrs])
  have s4 := hCloneBodies_step hw.bodies _ s3.1.1 s3.1.2.2
  have s5 := allocCell_step s4.1.1 s4.1.2.2
    (c := Cell.world ⟨hw.tick, hw.elapsedMs,
      (allocCell h (Cell.vec (readVec h hw.gravity))).2,
      (allocCell (allocCell h (Cell.vec (readVec h hw.gravity))).1
        (Cell.vec (readVec h hw.boundsMin))).2,
      (allocCell (allocCell (allocCell h (Cell.vec (readVec h hw.gravity))).1
        (Cell.vec (readVec h hw.boundsMin))).1 (Cell.vec (readVec h hw.boundsMax))).2,
      hw.defaultRestitution, hw.defaultFriction, hw.defaultLinearDamping,
      (hCloneBodies (allocCell (allocCell (allocCell h
        (Cell.vec (readVec h hw.gravity))).1
        (Cell.vec (readVec h hw.boundsMin))).1
        (Cell.vec (readVec h hw.boundsMax))).1 hw.bodies).2⟩)
    (by
      intro x hx
      simp only [cellAddrs, List.mem_cons] at hx
      rcases hx with hx | hx | hx | hx
      · rw [hx]; exact s1.2
      · rw [hx]; exact s2.2
      · rw [hx]; exact s3.2
      · exact s4.2 x hx)
  exact ⟨(((s1.1.trans s2.1).trans s3.1).trans s4.1).trans s5.1, s5.2⟩


lemma writeWorld_none {h : Heap} {a : ℕ} {w : HWorld}
    (hr : readWorld h a = none) : writeWorld h a w = h := by
  rw [writeWorld]
  split
  · next hcell => rw [readWorld, hcell] at hr; simp at hr
  · rfl

lemma mapLookup_some {m : List (String × ℕ)} {k : String} {a : ℕ}
    (h : mapLookup m k = some a) : ∃ e ∈ m, e.2 = a := by
  rw [mapLookup] at h
  rcases Option.map_eq_some'.1 h with ⟨e, he, hea⟩
  rw [List.getLast?_eq_get?] at he
  have hmem : e ∈ m.filter (fun e => e.1 == k) := List.get?_mem he
  exact ⟨e, (List.mem_filter.1 hmem).1, hea⟩

lemma hApplyAction_step {n : ℕ} {h : Heap} {worldAddr : ℕ} {m : List (String × ℕ)}
    {action : PhysicsAction} {dt : ℚ}
    (hn : n ≤ h.length) (hc : closedFrom n h) (hwa : n ≤ worldAddr)
    (hm : ∀ e ∈ m, n ≤ e.2) :
    Step n h (hApplyAction h worldAddr m action dt).1 ∧
      ∀ e ∈ (hApplyAction h worldAddr m action dt).2, n ≤ e.2 := by
  cases action with
  | spawnBody body =>
    simp only [hApplyAction]
    have s1 := hCloneBodyFromValue_step (b := body) hn hc
    split_ifs with hcond
    · exact ⟨s1.1, hm⟩
    · rcases hr : readWorld (hCloneBodyFromValue h body).1 worldAddr with _ | w0
      · refine ⟨?_, ?_⟩
        · rw [writeWorld_none hr]
          exact s1.1
        · intro e he
          rcases List.mem_append.1 he with he | he
          · exact hm e he
          · rw [List.mem_singleton.1 he]
            exact s1.2
      · have hw0 := readWorld_addrs s1.1.2.2 hwa hr
        refine ⟨s1.1.trans (writeWorld_step s1.1.1 s1.1.2.2 hwa ?_), ?_⟩
        · refine ⟨hw0.1, hw0.2.1, hw0.2.2.1, ?_⟩
          intro x hx
          rcases List.mem_append.1 hx with hx | hx
          · exact hw0.2.2.2 x hx
          · rw [List.mem_singleton.1 hx]
            exact s1.2
        · intro e he
          rcases List.mem_append.1 he with he | he
          · exact hm e he
          · rw [List.mem_singleton.1 he]
            exact s1.2
  | removeBody bodyId =>
    simp only [hApplyAction]
    rcases hml : mapLookup m bodyId with _ | addr
    · exact ⟨Step.same hn hc, hm⟩
    · dsimp only
      rcases hr : readWorld h worldAddr with _ | w0
      · refine ⟨?_, fun e he => hm e (List.mem_of_mem_filter he)⟩
        rw [writeWorld_none hr]
        exact Step.same hn hc
      · have hw0 := readWorld_addrs hc hwa hr
        refine ⟨writeWorld_step hn hc hwa ?_, fun e he => hm e (List.mem_of_mem_filter he)⟩
        exact ⟨hw0.1, hw0.2.1, hw0.2.2.1,
          fun x hx => hw0.2.2.2 x (List.mem_of_mem_filter hx)⟩
  | applyImpulse bodyId impulse =>
    simp only [hApplyAction]
    rcases hml : mapLookup m bodyId with _ | addr
    · exact ⟨Step.same hn hc, hm⟩
    · dsimp only
      have haddr : n ≤ addr := by
        rcases mapLookup_some hml with ⟨e, he, hea⟩
        rw [← hea]; exact hm e he
      rcases hrb : readBody h addr with _ | target
      · exact ⟨Step.same hn hc, hm⟩
      · have htb := readBody_addrs hc haddr hrb
        dsimp only
        split_ifs with hdyn
        · exact ⟨Step.same hn hc, hm⟩
        · exact ⟨writeVec_step hn hc htb.2.1, hm⟩
  | applyForce bodyId force =>
    simp only [hApplyAction]
    rcases hml : mapLookup m bodyId with _ | addr
    · exact ⟨Step.same hn hc, hm⟩
    · dsimp only
      have haddr : n ≤ addr := by
        rcases mapLookup_some hml with ⟨e, he, hea⟩
        rw [← hea]; exact hm e he
      rcases hrb : readBody h addr with _ | target
      · exact ⟨Step.same hn hc, hm⟩
      · have htb := readBody_addrs hc haddr hrb
        dsimp only
        split_ifs with hdyn
        · exact ⟨Step.same hn hc, hm⟩
        · exact ⟨writeVec_step hn hc htb.2.1, hm⟩
  | setVelocity bodyId velocity =>
    simp only [hApplyAction]
    rcases hml : mapLookup m bodyId with _ | addr
    · exact ⟨Step.same hn hc, hm⟩
    · dsimp only
      have haddr : n ≤ addr := by
        rcases mapLookup_some hml with ⟨e, he, hea⟩
        rw [← hea]; exact hm e he
      rcases hrb : readBody h addr with _ | target
      · exact ⟨Step.same hn hc, hm⟩
      · have htb := readBody_addrs hc haddr hrb
        dsimp only
        split_ifs with hdyn
        · exact ⟨Step.same hn hc, hm⟩
        · have sa := allocCell_step (c := Cell.vec velocity) hn hc (by simp [cellAddrs])
          refine ⟨sa.1.trans (writeBody_step sa.1.1 sa.1.2.2 haddr ?_), hm⟩
          exact ⟨htb.1, sa.2, htb.2.2⟩
  | teleport bodyId position =>
    simp only [hApplyAction]
    rcases hml : mapLookup m bodyId with _ | addr
    · exact ⟨Step.same hn hc, hm⟩
    · dsimp only
      have haddr : n ≤ addr := by
        rcases mapLookup_some hml with ⟨e, he, hea⟩
        rw [← hea]; exact hm e he
      rcases hrb : readBody h addr with _ | target
      · exact ⟨Step.same hn hc, hm⟩
      · have htb := readBody_addrs hc haddr hrb
        dsimp only
        split_ifs with hdyn
        · exact ⟨Step.same hn hc, hm⟩
        · have sa := allocCell_step (c := Cell.vec position) hn hc (by simp [cellAddrs])
          refine ⟨sa.1.trans (writeBody_step sa.1.1 sa.1.2.2 haddr ?_), hm⟩
          exact ⟨sa.2, htb.2.1, htb.2.2⟩

lemma foldl_hApplyAction_step {n : ℕ} {worldAddr : ℕ} {dt : ℚ} (hwa : n ≤ worldAddr) :
    ∀ (actions : List PhysicsAction) (h : Heap) (m : List (String × ℕ)),
      n ≤ h.length → closedFrom n h → (∀ e ∈ m, n ≤ e.2) →
      Step n h ((actions.foldl
          (fun acc action => hApplyAction acc.1 worldAddr acc.2 action dt) (h, m)).1) ∧
        ∀ e ∈ (actions.foldl
          (fun acc action => hApplyAction acc.1 worldAddr acc.2 action dt) (h, m)).2,
          n ≤ e.2 := by
  intro actions
  induction actions with
  | nil =>
    intro h m hn hc hm
    exact ⟨Step.same hn hc, hm⟩
  | cons a rest ih =>
    intro h m hn hc hm
    rw [List.foldl_cons]
    have s1 := @hApplyAction_step _ _ _ _ a dt hn hc hwa hm
    have s2 := ih (hApplyAction h worldAddr m a dt).1 (hApplyAction h worldAddr m a dt).2
      s1.1.1 s1.1.2.2 s1.2
    exact ⟨s1.1.trans s2.1, s2.2⟩

lemma foldl_heap_step {n : ℕ} (f : Heap → ℕ → Heap)
    (hf : ∀ h a, n ≤ h.length → closedFrom n h → n ≤ a → Step n h (f h a)) :
    ∀ (l : List ℕ) (h : Heap), (∀ a ∈ l, n ≤ a) → n ≤ h.length → closedFrom n h →
      Step n h (l.foldl f h) := by
  intro l
  induction l with
  | nil =>
    intro h _ hn hc
    exact Step.same hn hc
  | cons a rest ih =>
    intro h hl hn hc
    rw [List.foldl_cons]
    have s1 := hf h a hn hc (hl a (List.mem_cons_self a rest))
    have s2 := ih (f h a) (fun x hx => hl x (List.mem_cons_of_mem a hx)) s1.1 s1.2.2
    exact s1.trans s2

lemma hIntegrateBody_step {n : ℕ} {h : Heap} {worldAddr : ℕ} {dt : ℚ} {a : ℕ}
    (hn : n ≤ h.length) (hc : closedFrom n h) (ha : n ≤ a) :
    Step n h (hIntegrateBody h worldAddr dt a) := by
  rw [hIntegrateBody]
  rcases hrb : readBody h a with _ | hb
  · exact Step.same hn hc
  · have htb := readBody_addrs hc ha hrb
    have s1 := writeVec_step (a := hb.velocity)
      (v := (integrateBody (hViewWorld h worldAddr) dt (readBodyValue h a)).velocity)
      hn hc htb.2.1
    exact s1.trans (writeVec_step s1.1 s1.2.2 htb.1)

lemma hIntegrateBodies_step {n : ℕ} {h : Heap} {worldAddr : ℕ} {dt : ℚ}
    (hn : n ≤ h.length) (hc : closedFrom n h) (hwa : n ≤ worldAddr) :
    Step n h (hIntegrateBodies h worldAddr dt) := by
  rw [hIntegrateBodies]
  rcases hr : readWorld h worldAddr with _ | w0
  · exact Step.same hn hc
  · have hw0 := readWorld_addrs hc hwa hr
    exact foldl_heap_step _
      (fun h a hn hc ha => hIntegrateBody_step hn hc ha)
      ((some w0).getD defaultHWorld).bodies h hw0.2.2.2 hn hc

lemma foldl_heap_pair_step {n : ℕ} {l : List ℕ}
    (f : Heap → ℕ → Heap × List CollisionEvent)
    (hf : ∀ h a, a ∈ l → n ≤ h.length → closedFrom n h → Step n h (f h a).1) :
    ∀ (h : Heap) (evs : List CollisionEvent), n ≤ h.length → closedFrom n h →
      Step n h ((l.foldl
        (fun acc a => ((f acc.1 a).1, acc.2 ++ (f acc.1 a).2)) (h, evs)).1) := by
  induction l with
  | nil =>
    intro h evs hn hc
    exact Step.same hn hc
  | cons a rest ih =>
    intro h evs hn hc
    rw [List.foldl_cons]
    have s1 := hf h a (List.mem_cons_self a rest) hn hc
    have s2 := ih (fun h x hx => hf h x (List.mem_cons_of_mem a hx))
      (f h a).1 (evs ++ (f h a).2) s1.1 s1.2.2
    exact s1.trans s2

lemma hResolveWorldCollision_step {n : ℕ} {h : Heap} {worldAddr : ℕ} {a : ℕ}
    (hn : n ≤ h.length) (hc : closedFrom n h) (ha : n ≤ a) :
    Step n h (hResolveWorldCollision h worldAddr a).1 := by
  rw [hResolveWorldCollision]
  rcases hrb : readBody h a with _ | hb
  · exact Step.same hn hc
  · have htb := readBody_addrs hc ha hrb
    have s1 := writeVec_step (a := hb.position)
      (v := (resolveWorldCollision (hViewWorld h worldAddr)
        (readBodyValue h a)).1.position)
      hn hc htb.1
    exact s1.trans (writeVec_step s1.1 s1.2.2 htb.2.1)

lemma hResolveBoundaries_step {n : ℕ} {h : Heap} {worldAddr : ℕ}
    (hn : n ≤ h.length) (hc : closedFrom n h) (hwa : n ≤ worldAddr) :
    Step n h (hResolveBoundaries h worldAddr).1 := by
  rw [hResolveBoundaries]
  rcases hr : readWorld h worldAddr with _ | w0
  · exact Step.same hn hc
  · have hw0 := readWorld_addrs hc hwa hr
    exact foldl_heap_pair_step _
      (fun h a ha hn hc => hResolveWorldCollision_step hn hc (hw0.2.2.2 a ha))
      h [] hn hc

lemma hResolveBodyCollision_step {n : ℕ} {h : Heap} {worldAddr : ℕ} {aA aB : ℕ}
    (hn : n ≤ h.length) (hc : closedFrom n h) (hA : n ≤ aA) (hB : n ≤ aB) :
    Step n h (hResolveBodyCollision h worldAddr aA aB).1 := by
  rw [hResolveBodyCollision]
  rcases hrA : readBody h aA with _ | hbA <;>
    rcases hrB : readBody h aB with _ | hbB
  · exact Step.same hn hc
  · exact Step.same hn hc
  · exact Step.same hn hc
  · have htA := readBody_addrs hc hA hrA
    have htB := readBody_addrs hc hB hrB
    have s1 := writeVec_step (a := hbA.position)
      (v := (resolveBodyCollision (hViewWorld h worldAddr)
        (readBodyValue h aA) (readBodyValue h aB)).1.position)
      hn hc htA.1
    have s2 := s1.trans (writeVec_step (a := hbA.velocity)
      (v := (resolveBodyCollision (hViewWorld h worldAddr)
        (readBodyValue h aA) (readBodyValue h aB)).1.velocity)
      s1.1 s1.2.2 htA.2.1)
    have s3 := s2.trans (writeVec_step (a := hbB.position)
      (v := (resolveBodyCollision (hViewWorld h worldAddr)
        (readBodyValue h aA) (readBodyValue h aB)).2.1.position)
      s2.1 s2.2.2 htB.1)
    exact s3.trans (writeVec_step s3.1 s3.2.2 htB.2.1)

lemma insertAddrById_mem {h : Heap} {x y : ℕ} :
    ∀ {l : List ℕ}, y ∈ insertAddrById h x l → y = x ∨ y ∈ l := by
  intro l
  induction l with
  | nil =>
    intro hy
    rw [insertAddrById] at hy
    exact Or.inl (List.mem_singleton.1 hy)
  | cons a rest ih =>
    intro hy
    rw [insertAddrById] at hy
    split at hy
    · rcases List.mem_cons.1 hy with hy | hy
      · exact Or.inl hy
      · exact Or.inr hy
    · rcases List.mem_cons.1 hy with hy | hy
      · exact Or.inr (hy ▸ List.mem_cons_self a rest)
      · rcases ih hy with hy2 | hy2
        · exact Or.inl hy2
        · exact Or.inr (List.mem_cons_of_mem a hy2)

lemma sortAddrsById_mem {h : Heap} {addrs : List ℕ} {y : ℕ}
    (hy : y ∈ sortAddrsById h addrs) : y ∈ addrs := by
  rw [sortAddrsById] at hy
  suffices hgen : ∀ (l acc : List ℕ),
      y ∈ l.foldl (fun acc x => insertAddrById h x acc) acc → y ∈ l ∨ y ∈ acc by
    rcases hgen addrs [] hy with h1 | h1
    · exact h1
    · exact absurd h1 (List.not_mem_nil y)
  intro l
  induction l with
  | nil =>
    intro acc hacc
    exact Or.inr hacc
  | cons a rest ih =>
    intro acc hacc
    rw [List.foldl_cons] at hacc
    rcases ih _ hacc with h1 | h1
    · exact Or.inl (List.mem_cons_of_mem a h1)
    · rcases insertAddrById_mem h1 with h2 | h2
      · exact Or.inl (h2 ▸ List.mem_cons_self a rest)
      · exact Or.inr h2

lemma hResolvePairs_step {n : ℕ} {h : Heap} {worldAddr : ℕ} {ordered : List ℕ}
    (hn : n ≤ h.length) (hc : closedFrom n h) (hwa : n ≤ worldAddr)
    (hord : ∀ x ∈ ordered, n ≤ x) :
    Step n h (hResolvePairs h worldAddr ordered).1 := by
  rw [hResolvePairs]
  suffices hgen : ∀ (ps : List (ℕ × ℕ)) (h : Heap) (evs : List CollisionEvent),
      n ≤ h.length → closedFrom n h →
      Step n h ((ps.foldl
        (fun acc ij =>
          match ordered.get? ij.1, ordered.get? ij.2 with
          | some aA, some aB =>
            if !(isDynamic (readBodyValue acc.1 aA)) &&
                !(isDynamic (readBodyValue acc.1 aB)) then acc
            else
              let r := hResolveBodyCollision acc.1 worldAddr aA aB
              (r.1, acc.2 ++ r.2)
          | _, _ => acc) (h, evs)).1) from
    hgen (pairIndices ordered.length) h [] hn hc
  intro ps
  induction ps with
  | nil =>
    intro h evs hn hc
    exact Step.same hn hc
  | cons ij rest ih =>
    intro h evs hn hc
    rw [List.foldl_cons]
    rcases hgA : ordered.get? ij.1 with _ | aA <;>
      rcases hgB : ordered.get? ij.2 with _ | aB
    · exact ih h evs hn hc
    · exact ih h evs hn hc
    · exact ih h evs hn hc
    · have hA : n ≤ aA := hord aA (List.get?_mem hgA)
      have hB : n ≤ aB := hord aB (List.get?_mem hgB)
      by_cases hdyn : (!(isDynamic (readBodyValue h aA)) &&
          !(isDynamic (readBodyValue h aB))) = true
      · simp only [hgA, hgB, hdyn, if_true]
        exact ih h evs hn hc
      · simp only [hgA, hgB, hdyn, if_false]
        have s1 := @hResolveBodyCollision_step _ _ worldAddr _ _ hn hc hA hB
        have s2 := ih (hResolveBodyCollision h worldAddr aA aB).1
          (evs ++ (hResolveBodyCollision h worldAddr aA aB).2) s1.1 s1.2.2
        exact s1.trans s2


lemma hStepWorld_step {n : ℕ} {h : Heap} {src : ℕ} {actions : List PhysicsAction}
    {dtMs : ℚ} (hn : n ≤ h.length) (hc : closedFrom n h) :
    Step n h (hStepWorld h src actions dtMs).1 ∧
      n ≤ (hStepWorld h src actions dtMs).2.1 := by
  rw [hStepWorld]
  dsimp only
  set c := hCloneWorld h src with hc0
  set m0 := (((readWorld c.1 c.2).getD defaultHWorld).bodies).map
    (fun a => (readBodyId c.1 a, a)) with hm0
  set F := actions.foldl
    (fun acc action => hApplyAction acc.1 c.2 acc.2 action (dtMs / 1000))
    (c.1, m0) with hF
  set H2 := hIntegrateBodies F.1 c.2 (dtMs / 1000) with hH2
  set RB := hResolveBoundaries H2 c.2 with hRB
  set OL := sortAddrsById RB.1 (((readWorld RB.1 c.2).getD defaultHWorld).bodies)
    with hOL
  set RP := hResolvePairs RB.1 c.2 OL with hRP
  have s0 := @hCloneWorld_step _ _ src hn hc
  rw [← hc0] at s0
  have hmb : ∀ e ∈ m0, n ≤ e.2 := by
    rw [hm0]
    intro e he
    rcases List.mem_map.1 he with ⟨a, ha, hea⟩
    rcases hr : readWorld c.1 c.2 with _ | w0
    · rw [hr] at ha
      simp [defaultHWorld] at ha
    · rw [hr] at ha
      rw [← hea]
      exact (readWorld_addrs s0.1.2.2 s0.2 hr).2.2.2 a ha
  have s1 := @foldl_hApplyAction_step _ _ (dtMs / 1000) s0.2 actions
    c.1 m0 s0.1.1 s0.1.2.2 hmb
  rw [← hF] at s1
  have s2 := @hIntegrateBodies_step _ _ _ (dtMs / 1000) s1.1.1 s1.1.2.2 s0.2
  rw [← hH2] at s2
  have s3 := hResolveBoundaries_step s2.1 s2.2.2 s0.2
  rw [← hRB] at s3
  have hordmem : ∀ x ∈ OL, n ≤ x := by
    rw [hOL]
    intro x hx
    have hx2 := sortAddrsById_mem hx
    rcases hr : readWorld RB.1 c.2 with _ | w0
    · rw [hr] at hx2
      simp [defaultHWorld] at hx2
    · rw [hr] at hx2
      exact (readWorld_addrs s3.2.2 s0.2 hr).2.2.2 x hx2
  have s4 := hResolvePairs_step s3.1 s3.2.2 s0.2 hordmem
  rw [← hRP] at s4
  have scomp := (((s0.1.trans s1.1).trans s2).trans s3).trans s4
  refine ⟨?_, s0.2⟩
  rcases hrW : readWorld RP.1 c.2 with _ | w0
  · rw [writeWorld_none hrW]
    exact scomp
  · have hw0 := readWorld_addrs scomp.2.2 s0.2 hrW
    exact scomp.trans (writeWorld_step scomp.1 scomp.2.2 s0.2
      ⟨hw0.1, hw0.2.1, hw0.2.2.1, hw0.2.2.2⟩)

lemma hSimLoop_step {n : ℕ} {dtMs : ℚ} :
    ∀ (steps : ℕ) (actions : List PhysicsAction) (h : Heap) (wA : ℕ),
      n ≤ h.length → closedFrom n h → n ≤ wA →
      Step n h (hSimLoop dtMs actions steps h wA).1 ∧
        n ≤ (hSimLoop dtMs actions steps h wA).2.1 := by
  intro steps
  induction steps with
  | zero =>
    intro actions h wA hn hc hwa
    exact ⟨Step.same hn hc, hwa⟩
  | succ k ih =>
    intro actions h wA hn hc hwa
    simp only [hSimLoop]
    have s1 := @hStepWorld_step _ _ wA actions dtMs hn hc
    have s2 := ih [] (hStepWorld h wA actions dtMs).1 (hStepWorld h wA actions dtMs).2.1
      s1.1.1 s1.1.2.2 s1.2
    exact ⟨s1.1.trans s2.1, s2.2⟩

lemma hRunPhysicsSimulation_step {n : ℕ} {h : Heap} {worldAddr : ℕ}
    {actions : Option (List PhysicsAction)} {dtMs? steps? : Option ℚ}
    (hn : n ≤ h.length) (hc : closedFrom n h) :
    Step n h (hRunPhysicsSimulation h worldAddr actions dtMs? steps?).1 ∧
      n ≤ (hRunPhysicsSimulation h worldAddr actions dtMs? steps?).2.1 := by
  rw [hRunPhysicsSimulation]
  have s0 := @hCloneWorld_step _ _ worldAddr hn hc
  have s1 := @hSimLoop_step _
    (clamp (dtMs?.getD DEFAULT_DT_MS) MIN_DT_MS MAX_DT_MS)
    (jsRound (clamp (steps?.getD DEFAULT_STEPS) DEFAULT_STEPS MAX_STEPS)).toNat
    (actions.getD []) (hCloneWorld h worldAddr).1 (hCloneWorld h worldAddr).2
    s0.1.1 s0.1.2.2 s0.2
  exact ⟨s0.1.trans s1.1, s1.2⟩

lemma closedFrom_length (h : Heap) : closedFrom h.length h := by
  intro a ha c hget x hx
  rw [List.get?_eq_none.2 ha] at hget
  exact absurd hget (by simp)


/-- C3: `runPhysicsSimulation` never mutates the caller's input.  Over the
heap model of the engine (`hRunPhysicsSimulation`, which performs every
mutation of the JS code through explicitly addressed cells), every cell of
the caller's heap is unchanged by a run — in particular the input world
record, its gravity and bounds vectors, and every input body's
position/velocity/halfSize vectors are bit-for-bit their pre-call values —
and the returned world lives at a fresh address all of whose reachable
cells are likewise fresh, so the result is a fully independent new value
sharing no mutable cell with the input. -/
theorem run_simulation_never_mutates_input (h : Heap) (worldAddr : ℕ)
    (actions : Option (List PhysicsAction)) (dtMs? steps? : Option ℚ) :
    (∀ a, a < h.length →
        (hRunPhysicsSimulation h worldAddr actions dtMs? steps?).1.get? a =
          h.get? a) ∧
      h.length ≤ (hRunPhysicsSimulation h worldAddr actions dtMs? steps?).2.1 ∧
      closedFrom h.length
        (hRunPhysicsSimulation h worldAddr actions dtMs? steps?).1 := by
  have s := @hRunPhysicsSimulation_step h.length h worldAddr actions dtMs? steps?
    (le_refl h.length) (closedFrom_length h)
  exact ⟨s.1.2.1, s.2, s.1.2.2⟩

end HeapModel

end GamePhysics



















